import Mathlib

/-!
Verification of the SpinalHDL USB device-controller (UDC) driver core
from src/services/usb-test/src/spinal_udc.c.

Shallow embedding: the driver state (endpoint array, descriptor pools,
refill bookkeeping, EP0 control machinery) is an explicit record; the
memory-mapped per-endpoint status registers and the three descriptor
header words are carried as fields so that register and header writes
performed by the C code are observable.  Machine integers are Nat with
explicit truncation (mod 2^32 for u32, mod 2^16 for u16) where the C
arithmetic can wrap.  Descriptor payload RAM contents (the word-copy
loop for IN transfers and the memcpy on OUT completion) are not
modelled: no claim concerns payload bytes, only header words, lists and
counters.  The intrusive doubly-linked lists of the C source become
Lean lists; a descriptor node that lives simultaneously on an
endpoint's in-flight list and on a request's descriptor list is stored
in both lists and kept in sync by address-keyed updates.
-/

namespace Spinal

/-- SPINAL_UDC_MAX_ENDPOINTS from the source: sixteen endpoints. -/
def SPINAL_UDC_MAX_ENDPOINTS : Nat := 16

/-- EP0_MAX_PACKET. -/
def EP0_MAX_PACKET : Nat := 64

/-- EP_MAX_PACKET. -/
def EP_MAX_PACKET : Nat := 512

/-- DESC_HEADER_SIZE: bytes of descriptor header in peripheral RAM. -/
def DESC_HEADER_SIZE : Nat := 12

/-- DESC_SMALL_SIZE = 64+4. -/
def DESC_SMALL_SIZE : Nat := 64 + 4

/-- DESC_LARGE_SIZE = 512+4. -/
def DESC_LARGE_SIZE : Nat := 512 + 4

/-- DESC_LARGE_COUNT: number of large descriptors carved at probe. -/
def DESC_LARGE_COUNT : Nat := 4

/-- EP_DESC_MAX: bound on in-flight descriptors per endpoint. -/
def EP_DESC_MAX : Nat := 2

/-- USB_DEVICE_IRQ_RESET: bit index 16 of the INTERRUPT register. -/
def USB_DEVICE_IRQ_RESET : Nat := 16

/-- USB_DEVICE_IRQ_SETUP: defined in the source as the plain number 17,
the bit index of the SETUP interrupt in the INTERRUPT register. -/
def USB_DEVICE_IRQ_SETUP : Nat := 17

/-- USB_DEVICE_CODE_NONE: descriptor completion code meaning untouched. -/
def USB_DEVICE_CODE_NONE : Nat := 0xF

/-- USB_DEVICE_CODE_DONE. -/
def USB_DEVICE_CODE_DONE : Nat := 0x0

/-- USB_DEVICE_DESC_IN = 1 << 16. -/
def USB_DEVICE_DESC_IN : Nat := 1 <<< 16

/-- USB_DEVICE_DESC_OUT = 0 << 16. -/
def USB_DEVICE_DESC_OUT : Nat := 0

/-- USB_DEVICE_DESC_INTERRUPT = 1 << 17. -/
def USB_DEVICE_DESC_INTERRUPT : Nat := 1 <<< 17

/-- USB_DEVICE_DESC_COMPL_ON_FULL = 1 << 18. -/
def USB_DEVICE_DESC_COMPL_ON_FULL : Nat := 1 <<< 18

/-- USB_DEVICE_DESC_DATA1_COMPLETION = 1 << 19. -/
def USB_DEVICE_DESC_DATA1_COMPLETION : Nat := 1 <<< 19

/-- USB_DEVICE_PULLUP_ENABLE = 1 << 0. -/
def USB_DEVICE_PULLUP_ENABLE : Nat := 1 <<< 0

/-- USB_DEVICE_PULLUP_DISABLE = 2 << 0. -/
def USB_DEVICE_PULLUP_DISABLE : Nat := 2 <<< 0

/-- USB_DEVICE_INTERRUPT_ENABLE = 1 << 2. -/
def USB_DEVICE_INTERRUPT_ENABLE : Nat := 1 <<< 2

/-- USB_DEVICE_INTERRUPT_DISABLE = 2 << 2. -/
def USB_DEVICE_INTERRUPT_DISABLE : Nat := 2 <<< 2

/-- USB_DEVICE_EP_ENABLE = 1 << 0. -/
def USB_DEVICE_EP_ENABLE : Nat := 1 <<< 0

/-- USB_DEVICE_EP_STALL = 1 << 1. -/
def USB_DEVICE_EP_STALL : Nat := 1 <<< 1

/-- EP0_STATE_DATA. -/
def EP0_STATE_DATA : Nat := 1

/-- EP0_STATE_STATUS. -/
def EP0_STATE_STATUS : Nat := 2

/-- USB_ENDPOINT_NUMBER_MASK from linux/usb/ch9.h: 0x0f. -/
def USB_ENDPOINT_NUMBER_MASK : Nat := 0x0f

/-- USB_SPEED_UNKNOWN from linux/usb/ch9.h (enum usb_device_speed). -/
def USB_SPEED_UNKNOWN : Nat := 0

/-- USB_SPEED_FULL from linux/usb/ch9.h (enum usb_device_speed). -/
def USB_SPEED_FULL : Nat := 2

/-- Linux errno EINVAL. -/
def EINVAL : Int := 22

/-- Linux errno EBUSY. -/
def EBUSY : Int := 16

/-- Linux errno EAGAIN. -/
def EAGAIN : Int := 11

/-- Linux errno ECONNRESET. -/
def ECONNRESET : Int := 104

/-- Linux errno ESHUTDOWN. -/
def ESHUTDOWN : Int := 108

/-- Linux errno EINPROGRESS. -/
def EINPROGRESS : Int := 115

/-- Modulus of the 32-bit unsigned integers used throughout the driver. -/
def U32 : Nat := 2 ^ 32

/-- Truncation to u32. -/
def u32 (n : Nat) : Nat := n % U32

/-- u32 subtraction with wrap-around; faithful for minuends below 2^32. -/
def u32sub (a b : Nat) : Nat := (a + U32 - b % U32) % U32

/-- Bitwise complement of a mask inside a 32-bit word. -/
def u32not (m : Nat) : Nat := 0xFFFFFFFF ^^^ m

/-- Truncation to u16 (type of refill_queue and refill_robin). -/
def u16trunc (n : Nat) : Nat := n % 2 ^ 16

/-- Completion-callback value carried by a request (usb_req.complete):
either NULL, a gadget-supplied callback, or one of the three internal
callbacks of the driver.  In the embedding callbacks are logged, not
re-entered, except for the EP0 data-completion chain which the C source
invokes synchronously and which is modelled explicitly. -/
inductive ComplTag where
  | none : ComplTag
  | gadget : Nat → ComplTag
  | setAddress : ComplTag
  | ep0Data : ComplTag
  | ep0Status : ComplTag
deriving DecidableEq, Repr

/-- struct spinal_udc_descriptor: the software bookkeeping of one
hardware descriptor plus its three header words in peripheral RAM
(word0 at mapping+0, word1 at mapping+4, word2 at mapping+8).
The isLarge flag stands for the desc->free back-link to the origin
free-list (dp_large or dp_small). -/
structure SpinalDesc where
  address : Nat
  length_raw : Nat
  isLarge : Bool
  offset : Nat
  length_deployed : Nat
  req_completion : Bool
  word0 : Nat
  word1 : Nat
  word2 : Nat
deriving DecidableEq, Repr

/-- struct spinal_udc_req together with the fields of its embedded
usb_request that the driver core reads or writes.  The id stands for
the object identity of the C request; bufAddr is the numeric value of
usb_req.buf used for the (buf + commited_length) & 3 misalignment
computation. -/
structure SpinalReq where
  id : Nat
  length : Nat
  zero : Bool
  short_not_ok : Bool
  bufAddr : Nat
  actual : Nat
  status : Int
  commited_length : Nat
  commited_once : Bool
  descriptors : List SpinalDesc
  complete : ComplTag
deriving DecidableEq, Repr

/-- struct spinal_udc_ep.  enabled stands for ep->desc being non-NULL. -/
structure SpinalEp where
  epnumber : Nat
  is_in : Bool
  is_iso : Bool
  enabled : Bool
  maxpacket : Nat
  reqs : List SpinalReq
  descriptors : List SpinalDesc
  descriptor_count : Nat
  pending_reqs_done : Nat
deriving DecidableEq, Repr

/-- struct spinal_udc: the driver singleton.  eps is the 16-entry
endpoint array (indices outside 0..15 are never used by the driver);
epRegs models the per-endpoint 32-bit status registers at base + 4*n;
irqReg is the current value of the INTERRUPT register (hardware is
passive in this embedding, so consecutive reads agree); completions
logs every completed request as (id, final status, callback). -/
structure Udc where
  eps : Nat → SpinalEp
  epRegs : Nat → Nat
  dp_small : List SpinalDesc
  dp_large : List SpinalDesc
  refill_queue : Nat
  refill_robin : Nat
  setup_wLength : Nat
  ep0_state : Nat
  driver : Bool
  gadget_speed : Nat
  remote_wkp : Bool
  ep0_data_completion : ComplTag
  ep0_data_req : Option Nat
  ep0_req : SpinalReq
  irqReg : Nat
  completions : List (Nat × Int × ComplTag)

/-- Read the endpoint record at index n. -/
def Udc.getEp (s : Udc) (n : Nat) : SpinalEp := s.eps n

/-- Update the endpoint record at index n. -/
def Udc.updEp (s : Udc) (n : Nat) (f : SpinalEp → SpinalEp) : Udc :=
  { s with eps := fun m => if m = n then f (s.eps m) else s.eps m }

/-- Read the per-endpoint hardware status register (readl at base+4n). -/
def Udc.getReg (s : Udc) (n : Nat) : Nat := s.epRegs n

/-- Write the per-endpoint hardware status register (writel at base+4n). -/
def Udc.setReg (s : Udc) (n : Nat) (v : Nat) : Udc :=
  { s with epRegs := fun m => if m = n then v else s.epRegs m }

/-- Append one entry (request id, final status, callback) to the
completion log, the embedding of invoking usb_req.complete. -/
def Udc.logCompletion (s : Udc) (entry : Nat × Int × ComplTag) : Udc :=
  { s with completions := s.completions ++ [entry] }

/-- Apply f to the descriptor with the given RAM address wherever its
node is stored (pools, endpoint in-flight lists, request descriptor
lists).  This models a header write through desc->mapping: the C lists
all share the single descriptor object. -/
def Udc.mapDesc (s : Udc) (addr : Nat) (f : SpinalDesc → SpinalDesc) : Udc :=
  let g : SpinalDesc → SpinalDesc := fun d => if d.address = addr then f d else d
  { s with
    dp_small := s.dp_small.map g
    dp_large := s.dp_large.map g
    eps := fun n =>
      let e := s.eps n
      { e with
        descriptors := e.descriptors.map g
        reqs := e.reqs.map fun r => { r with descriptors := r.descriptors.map g } } }

/-- spinal_udc_descriptor_push (spinal_udc.c lines 1079-1099): link a
freshly prepared descriptor behind the endpoint's in-flight chain.  If
the chain is non-empty, rewrite the tail's word1 with the new
descriptor's address as link and the tail's payload extent; if the
chain is empty and the hardware head-pointer bits 4..15 of the endpoint
register read zero, install the descriptor as hardware head.  Then
append to the in-flight list and bump descriptor_count.  (In the C the
list_move_tail also removes the node from its free-list; in this
embedding the pool removal is performed by the allocation site in the
refill step, before the push.) -/
def spinal_udc_descriptor_push (s : Udc) (epn : Nat) (desc : SpinalDesc) : Udc :=
  let ep := s.getEp epn
  let s1 :=
    match ep.descriptors.getLast? with
    | some last =>
        s.mapDesc last.address fun d =>
          { d with word1 := desc.address ||| ((last.length_deployed + last.offset) <<< 16) }
    | none =>
        let status := s.getReg epn
        if status &&& 0xFFF0 = 0 then
          s.setReg epn ((status &&& u32not 0xFFF0) ||| desc.address)
        else s
  s1.updEp epn fun e =>
    { e with descriptors := e.descriptors ++ [desc]
             descriptor_count := u32 (e.descriptor_count + 1) }

/-- spinal_udc_ep_link_head (lines 1101-1127): if the in-flight list is
non-empty but the hardware head pointer is zero and the head descriptor
still reads CODE_NONE in its status nibble, install it as head. -/
def spinal_udc_ep_link_head (s : Udc) (epn : Nat) : Udc :=
  let ep := s.getEp epn
  match ep.descriptors.head? with
  | none => s
  | some head =>
    let status_ep := s.getReg epn
    if status_ep &&& 0xFFF0 ≠ 0 then s
    else if head.word0 &&& 0xF0000 ≠ 0xF0000 then s
    else s.setReg epn ((status_ep &&& u32not 0xFFF0) ||| head.address)

/-- Outcome of one pass of the refill while-loop: either the loop stops
in the given state, or it emitted (allocated, filled, linked) one
descriptor and continues. -/
inductive RefillOutcome where
  | stop : Udc → RefillOutcome
  | emitted : Udc → SpinalDesc → RefillOutcome

/-- State carried out of a RefillOutcome. -/
def RefillOutcome.state : RefillOutcome → Udc
  | .stop s => s
  | .emitted s _ => s

/-- Descriptor emitted by a RefillOutcome, if any. -/
def RefillOutcome.desc : RefillOutcome → Option SpinalDesc
  | .stop _ => none
  | .emitted _ d => some d

/-- Apply a mutation to the head request of endpoint epn's FIFO, in
place (the refill loop mutates the head request through its pointer;
the FIFO tail is untouched). -/
def updHeadReqEp (s : Udc) (epn : Nat) (g : SpinalReq → SpinalReq) : Udc :=
  s.updEp epn fun e =>
    { e with reqs :=
        match e.reqs with
        | [] => []
        | r :: rs => g r :: rs }

/-- The descriptor-allocation section of the refill loop (lines
1271-1284): the head of the large pool when left >= DESC_LARGE_SIZE-4
and it is non-empty; otherwise the head of the small pool, except that
a non-EP0 caller may not take the last remaining small descriptor
(dp_small.next != dp_small.prev is the C test for at least two
entries); otherwise no descriptor.  The Bool records the origin pool
(true = large). -/
def refillPick (s : Udc) (epn : Nat) (left : Nat) : Option (SpinalDesc × Bool) :=
  if left ≥ DESC_LARGE_SIZE - 4 ∧ s.dp_large ≠ [] then
    s.dp_large.head?.map (fun d => (d, true))
  else if s.dp_small ≠ [] ∧ (epn = 0 ∨ 2 ≤ s.dp_small.length) then
    s.dp_small.head?.map (fun d => (d, false))
  else none

/-- One pass of the body of spinal_udc_ep_desc_refill (lines
1254-1318), including the loop guard: stop when descriptor_count equals
EP_DESC_MAX, the request FIFO is empty, the head request is fully
handed out, or no suitable descriptor is available (in which case bit
epnumber of refill_queue is set when the endpoint has no in-flight
descriptor).  Otherwise take the pool head via refillPick, fill its
three header words, append it to the head request's descriptor list,
push it onto the in-flight chain, and advance commited_length.  The
word-by-word payload copy for IN endpoints is not modelled. -/
def refillStep (s : Udc) (epn : Nat) : RefillOutcome :=
  let ep := s.getEp epn
  if ep.descriptor_count = EP_DESC_MAX then .stop s
  else
    match ep.reqs with
    | [] => .stop s
    | req :: _ =>
      let left := u32sub req.length req.commited_length
      if left = 0 ∧ req.commited_once then .stop s
      else
        match refillPick s epn left with
        | none =>
          if ep.descriptor_count = 0 then
            .stop { s with refill_queue := u16trunc (s.refill_queue ||| (1 <<< epn)) }
          else .stop s
        | some (desc0, fromLarge) =>
          let length := min desc0.length_raw left
          let offset := u32 (req.bufAddr + req.commited_length) &&& 3
          let req_completion : Bool := left = length
          let packet_end : Bool :=
            (length = left) ∧ ep.is_in = true ∧ ¬(ep.is_in = true ∧ req.zero = false) ∧
              ¬(epn = 0 ∧ s.setup_wLength ≤ u32 (req.commited_length + length))
          let desc1 : SpinalDesc :=
            { desc0 with
              offset := offset
              length_deployed := length
              req_completion := req_completion
              word0 := (USB_DEVICE_CODE_NONE <<< 16) ||| offset
              word1 := (length + offset) <<< 16
              word2 :=
                (if ep.is_in then USB_DEVICE_DESC_IN else USB_DEVICE_DESC_OUT) |||
                (if packet_end then 0 else USB_DEVICE_DESC_COMPL_ON_FULL) |||
                (if req_completion ∧ epn = 0 then USB_DEVICE_DESC_DATA1_COMPLETION else 0) |||
                USB_DEVICE_DESC_INTERRUPT }
          let s1 :=
            if fromLarge then { s with dp_large := s.dp_large.tail }
            else { s with dp_small := s.dp_small.tail }
          let s2 := updHeadReqEp s1 epn fun r =>
            { r with descriptors := r.descriptors ++ [desc1] }
          let s3 := spinal_udc_descriptor_push s2 epn desc1
          let s4 := updHeadReqEp s3 epn fun r =>
            { r with commited_length := u32 (r.commited_length + length)
                     commited_once := true }
          .emitted s4 desc1

/-- The refill while-loop as iterated refillStep, with fuel.  Under the
descriptor_count ≤ EP_DESC_MAX invariant the loop emits at most
EP_DESC_MAX descriptors before its guard stops it, so any fuel of at
least EP_DESC_MAX + 1 computes the exact C loop. -/
def refillLoop : Nat → Udc → Nat → Udc
  | 0, s, _ => s
  | fuel + 1, s, epn =>
    match refillStep s epn with
    | .stop s1 => s1
    | .emitted s1 _ => refillLoop fuel s1 epn

/-- Fuel used for the refill loop; sufficient in every state satisfying
the descriptor_count invariant. -/
def REFILL_FUEL : Nat := EP_DESC_MAX + 2

/-- spinal_udc_ep_desc_refill (lines 1249-1319): link-head recovery
followed by the refill loop. -/
def spinal_udc_ep_desc_refill (s : Udc) (epn : Nat) : Udc :=
  refillLoop REFILL_FUEL (spinal_udc_ep_link_head s epn) epn

/-- The round-robin walk of spinal_udc_ep_desc_free (lines 337-346):
starting at w, find the first bit set in queue, stepping w to
(w+1) & 0xF after each miss exactly as the C does.  Fuel 32 always
suffices when queue is a non-zero u16 value. -/
def robinWalk : Nat → Nat → Nat → Option Nat
  | 0, _, _ => none
  | fuel + 1, queue, w =>
    if queue &&& (1 <<< w) ≠ 0 then some w
    else robinWalk fuel queue ((w + 1) &&& 0xF)

/-- spinal_udc_ep_desc_free (lines 327-350): move the descriptor with
the given address from endpoint epn's in-flight list back to its origin
free-list, unlink it from its request's descriptor list, decrement
descriptor_count, then, if refill_queue is non-zero, pick a waiting
endpoint (EP0 unconditionally when bit 0 is set, else the round-robin
walk from refill_robin) and run its refill.  The winner's refill_queue
bit is not cleared by the C code, and neither is it here.  A call whose
address is not on the in-flight list has no defined C counterpart
(callers always pass an in-flight descriptor) and leaves the state
unchanged. -/
def spinal_udc_ep_desc_free (s : Udc) (epn : Nat) (addr : Nat) : Udc :=
  let ep := s.getEp epn
  match ep.descriptors.find? (fun d => d.address = addr) with
  | none => s
  | some desc =>
    let s1 := s.updEp epn fun e =>
      { e with
        descriptors := e.descriptors.eraseP (fun d => d.address = addr)
        reqs := e.reqs.map fun r =>
          { r with descriptors := r.descriptors.eraseP (fun d => d.address = addr) }
        descriptor_count := u32sub e.descriptor_count 1 }
    let s2 :=
      if desc.isLarge then { s1 with dp_large := s1.dp_large ++ [desc] }
      else { s1 with dp_small := s1.dp_small ++ [desc] }
    if s2.refill_queue ≠ 0 then
      if s2.refill_queue &&& 1 ≠ 0 then
        spinal_udc_ep_desc_refill s2 0
      else
        match robinWalk 32 s2.refill_queue s2.refill_robin with
        | some winner =>
          spinal_udc_ep_desc_refill { s2 with refill_robin := winner + 1 } winner
        | none => s2
    else s2

/-- The descriptor immediately preceding the one with the given address
on a list (list_prev_entry along the in-flight chain). -/
def prevEntry : List SpinalDesc → Nat → Option SpinalDesc
  | [], _ => none
  | [_], _ => none
  | a :: b :: rest, addr =>
    if b.address = addr then some a else prevEntry (b :: rest) addr

/-- One pass of the descriptor-drain loop inside spinal_udc_done (lines
370-387): read the link field of the descriptor, splice it out of the
hardware chain (rewriting the endpoint register's head bits when it is
the chain head, else the previous descriptor's link bits), and return
it to its pool via spinal_udc_ep_desc_free.  The hard-halt/unhalt pair
that brackets the whole drain is a hardware handshake with no software
state. -/
def doneDrainDesc (s : Udc) (epn : Nat) (addr : Nat) : Udc :=
  let ep := s.getEp epn
  match ep.descriptors.find? (fun d => d.address = addr) with
  | none => s
  | some desc =>
    let next := desc.word1 &&& 0xFFF0
    let s1 :=
      match ep.descriptors.head? with
      | none => s
      | some entry =>
        if entry.address = desc.address then
          s.setReg epn ((s.getReg epn &&& u32not 0xFFF0) ||| next)
        else
          match prevEntry ep.descriptors desc.address with
          | some entry2 =>
            s.mapDesc entry2.address fun d =>
              { d with word1 := (d.word1 &&& u32not 0xFFF0) ||| next }
          | none => s
    spinal_udc_ep_desc_free s1 epn addr

/-- spinal_udc_done (lines 352-400): detach the request from the
endpoint FIFO, resolve its final status (the passed status when the
request was still -EINPROGRESS, else its already-set status), drain any
descriptors it still holds, decrement pending_reqs_done, and complete
it.  The completion callback (invoked by the C with the lock released
when usb_req.complete is non-NULL) is recorded in the completions log
rather than re-entered. -/
def spinal_udc_done (s : Udc) (epn : Nat) (reqId : Nat) (status : Int) : Udc :=
  let ep := s.getEp epn
  match ep.reqs.find? (fun r => r.id = reqId) with
  | none => s
  | some req =>
    let s1 := s.updEp epn fun e =>
      { e with reqs := e.reqs.eraseP (fun r => r.id = reqId) }
    let finalStatus := if req.status = -EINPROGRESS then status else req.status
    let s2 := req.descriptors.foldl (fun acc d => doneDrainDesc acc epn d.address) s1
    let s3 := s2.updEp epn fun e =>
      { e with pending_reqs_done := u32sub e.pending_reqs_done 1 }
    s3.logCompletion (reqId, finalStatus, req.complete)

/-- The request-drain loop of spinal_udc_nuke, with fuel: complete the
head request with the given status until the FIFO is empty. -/
def nukeDrain : Nat → Udc → Nat → Int → Udc
  | 0, s, _, _ => s
  | fuel + 1, s, epn, status =>
    match (s.getEp epn).reqs.head? with
    | none => s
    | some r => nukeDrain fuel (spinal_udc_done s epn r.id status) epn status

/-- spinal_udc_nuke (lines 402-423): clear the hardware head-pointer
bits of the endpoint register (via ep_status_mask with mask ~0xFFF0,
whose hard-halt handshake has no software state), then complete every
queued request with the given status. -/
def spinal_udc_nuke (s : Udc) (epn : Nat) (status : Int) : Udc :=
  let s1 := s.setReg epn (s.getReg epn &&& u32not 0xFFF0)
  nukeDrain (s1.getEp epn).reqs.length s1 epn status

/-- Observable behaviour of spinal_udc_ep0_stall: whether it aborted
before touching the endpoint register, whether it cleared the stall
again after the post-check, and the sequence of values written to the
EP0 status register. -/
structure Ep0StallResult where
  aborted : Bool
  restored : Bool
  epRegWrites : List Nat
deriving DecidableEq, Repr

/-- spinal_udc_ep0_stall (lines 260-272), parameterised by the two
volatile reads of the INTERRUPT register (irq1 before, irq2 after
applying the stall) and the value the EP0 status register reads.  The
pre-check and post-check are the literal C expressions
readl(INTERRUPT) & USB_DEVICE_IRQ_SETUP with USB_DEVICE_IRQ_SETUP
defined as 17.  Applying the stall goes through ep_status_mask with
and-mask ~(throw_desc ? 0xFFF0 : 0) and or-mask USB_DEVICE_EP_STALL;
the restoration write re-reads the register (which now holds the first
written value) and clears the stall bit. -/
def spinal_udc_ep0_stall (irq1 irq2 : Nat) (epReg : Nat) (throw_desc : Bool) :
    Ep0StallResult :=
  if irq1 &&& USB_DEVICE_IRQ_SETUP ≠ 0 then
    { aborted := true, restored := false, epRegWrites := [] }
  else
    let w1 := (epReg &&& u32not (if throw_desc then 0xFFF0 else 0)) ||| USB_DEVICE_EP_STALL
    if irq2 &&& USB_DEVICE_IRQ_SETUP ≠ 0 then
      { aborted := false, restored := true
        epRegWrites := [w1, (w1 &&& u32not USB_DEVICE_EP_STALL)] }
    else
      { aborted := false, restored := false, epRegWrites := [w1] }

/-- Effect of spinal_udc_ep0_stall on the driver state, using the
state's (passive) INTERRUPT register for both volatile reads. -/
def applyEp0Stall (s : Udc) (throw_desc : Bool) : Udc :=
  let r := spinal_udc_ep0_stall s.irqReg s.irqReg (s.getReg 0) throw_desc
  match r.epRegWrites.getLast? with
  | none => s
  | some w => s.setReg 0 w

mutual

/-- __spinal_udc_ep0_queue (lines 1321-1366).  pending_reqs_done is
incremented before any check; no driver or unknown gadget speed yields
-EINVAL, a non-empty EP0 FIFO yields -EBUSY, and neither error path
undoes the increment.  Otherwise the request is initialised, the DATA
state hands the user completion to the driver's data-completion
callback and moves to STATUS (synthesising the data completion at once
for a zero-length request instead of queueing it), and the refill loop
runs.  The fuel bounds the synchronous EP0 completion chain
(queue -> data completion -> status -> queue), which the C re-enters at
most once per SETUP; fuel is only consumed on the synthesis path. -/
def __spinal_udc_ep0_queue (fuel : Nat) (s0 : Udc) (req0 : SpinalReq) : Int × Udc :=
    let s := s0.updEp 0 fun e =>
      { e with pending_reqs_done := u32 (e.pending_reqs_done + 1) }
    if s.driver = false ∨ s.gadget_speed = USB_SPEED_UNKNOWN then (-EINVAL, s)
    else if (s.getEp 0).reqs ≠ [] then (-EBUSY, s)
    else
      let req := { req0 with status := -EINPROGRESS, actual := 0
                             commited_length := 0, commited_once := false }
      if s.ep0_state = EP0_STATE_DATA then
        let s := { s with ep0_data_completion := req.complete
                          ep0_data_req := some req.id
                          ep0_state := EP0_STATE_STATUS }
        let req := { req with complete := ComplTag.ep0Data }
        if req.length = 0 then
          let s := { s with ep0_data_req := none }
          let req := { req with status := 0 }
          let s := s.updEp 0 fun e =>
            { e with pending_reqs_done := u32sub e.pending_reqs_done 1 }
          let s :=
            match fuel with
            | 0 => s
            | f + 1 => spinal_udc_ep0_data_completion f s req
          (0, spinal_udc_ep_desc_refill s 0)
        else
          let s := s.updEp 0 fun e => { e with reqs := e.reqs ++ [req] }
          (0, spinal_udc_ep_desc_refill s 0)
      else
        let s := s.updEp 0 fun e => { e with reqs := e.reqs ++ [req] }
        (0, spinal_udc_ep_desc_refill s 0)

/-- spinal_udc_ep0_data_completion (lines 587-599): restore the saved
user completion on the request; if the data phase erred invoke it
(logged), otherwise start the STATUS phase. -/
def spinal_udc_ep0_data_completion (fuel : Nat) (s : Udc) (req0 : SpinalReq) : Udc :=
    let req := { req0 with complete := s.ep0_data_completion }
    if req.status ≠ (0 : Int) then
      { s with completions := s.completions ++ [(req.id, req.status, req.complete)] }
    else
      match fuel with
      | 0 => s
      | f + 1 => spinal_udc_ep0_status f s

/-- spinal_udc_ep0_status (lines 568-585): flip the EP0 direction,
prepare the scratch request as a zero-length terminator whose
completion is the driver's status-completion callback, queue it on EP0,
and stall EP0 (discarding descriptors) if the queue call fails. -/
def spinal_udc_ep0_status (fuel : Nat) (s0 : Udc) : Udc :=
    let s := s0.updEp 0 fun e => { e with is_in := !e.is_in }
    let req := { s.ep0_req with length := 0, zero := true, short_not_ok := true
                                complete := ComplTag.ep0Status }
    let s := { s with ep0_req := req }
    match fuel with
    | 0 => s
    | f + 1 =>
      let r := __spinal_udc_ep0_queue f s req
      if r.1 = 0 then r.2 else applyEp0Stall r.2 true

end

/-- spinal_udc_ep_queue (lines 1386-1441), the non-EP0 queue operation:
reject when the endpoint is not enabled (-ESHUTDOWN) or there is no
bound driver or the gadget speed is unknown (-EINVAL); otherwise
initialise the request, append it to the endpoint FIFO, bump
pending_reqs_done and run the refill loop. -/
def spinal_udc_ep_queue (s : Udc) (epn : Nat) (req0 : SpinalReq) : Int × Udc :=
  if (s.getEp epn).enabled = false then (-ESHUTDOWN, s)
  else if s.driver = false ∨ s.gadget_speed = USB_SPEED_UNKNOWN then (-EINVAL, s)
  else
    let req := { req0 with status := -EINPROGRESS, actual := 0
                           commited_length := 0, commited_once := false }
    let s := s.updEp epn fun e =>
      { e with reqs := e.reqs ++ [req]
               pending_reqs_done := u32 (e.pending_reqs_done + 1) }
    (0, spinal_udc_ep_desc_refill s epn)

/-- spinal_udc_ep_dequeue (lines 1450-1474): when a request with the
given identity is on the endpoint FIFO, complete it with -ECONNRESET
and run the refill loop; otherwise fail with -EINVAL leaving the state
untouched. -/
def spinal_udc_ep_dequeue (s : Udc) (epn : Nat) (reqId : Nat) : Int × Udc :=
  if ((s.getEp epn).reqs.find? (fun r => r.id = reqId)).isSome then
    (0, spinal_udc_ep_desc_refill (spinal_udc_done s epn reqId (-ECONNRESET)) epn)
  else (-EINVAL, s)

/-- The fields of struct usb_endpoint_descriptor consumed by
__spinal_udc_ep_enable. -/
structure UsbEndpointDescriptor where
  bEndpointAddress : Nat
  bmAttributes : Nat
  wMaxPacketSize : Nat
deriving DecidableEq, Repr

/-- Power-of-two test used by the bulk maxpacket validation
(is_power_of_2). -/
def isPow2 (n : Nat) : Bool := n ≠ 0 ∧ n &&& (n - 1) = 0

/-- __spinal_udc_ep_enable (lines 917-995): parse direction, endpoint
number, type and maxpacket from the descriptor (mutating the endpoint
record before validation, as the C does), reject control endpoints,
interrupt endpoints with maxpacket above 64 and bulk endpoints whose
maxpacket is not a power of two in [8,512]; on success write the
endpoint config register (the epconfig write of maxpacket << 22
followed by ENABLE | PHASE(0) | maxpacket << 22). -/
def __spinal_udc_ep_enable (s : Udc) (epIdx : Nat) (d : UsbEndpointDescriptor) :
    Int × Udc :=
  let is_in := d.bEndpointAddress &&& 0x80 ≠ 0
  let epnumber := d.bEndpointAddress &&& 0x0f
  let maxpacket := d.wMaxPacketSize
  let s := s.updEp epIdx fun e =>
    { e with is_in := is_in, epnumber := epnumber
             enabled := true, maxpacket := maxpacket }
  let ty := d.bmAttributes &&& 0x03
  if ty = 0 then
    (-EINVAL, s.updEp epIdx fun e => { e with is_iso := false })
  else
    let s :=
      if ty = 1 then s.updEp epIdx fun e => { e with is_iso := true }
      else s.updEp epIdx fun e => { e with is_iso := false }
    if ty = 3 ∧ 64 < maxpacket then (-EINVAL, s)
    else if ty = 2 ∧ ¬(isPow2 maxpacket = true ∧ 8 ≤ maxpacket ∧ maxpacket ≤ 512) then
      (-EINVAL, s)
    else
      let s := s.setReg epnumber (maxpacket <<< 22)
      let s := s.setReg epnumber (USB_DEVICE_EP_ENABLE ||| (maxpacket <<< 22))
      (0, s)

/-- The config_bulk_out_desc constant used by spinal_udc_start to
enable EP0: OUT direction, bulk attributes, EP0_MAX_PACKET. -/
def config_bulk_out_desc : UsbEndpointDescriptor :=
  { bEndpointAddress := 0, bmAttributes := 2, wMaxPacketSize := EP0_MAX_PACKET }

/-- spinal_udc_start (lines 1129-1167): reject when a driver is already
bound; otherwise bind the driver, adopt its maximum speed, and enable
the control endpoint with config_bulk_out_desc.  The ADDRESS-register
write has no software state here. -/
def spinal_udc_start (s : Udc) (maxSpeed : Nat) : Int × Udc :=
  if s.driver then (-EBUSY, s)
  else
    let s := { s with driver := true, gadget_speed := maxSpeed }
    let r := __spinal_udc_ep_enable s 0 config_bulk_out_desc
    (r.1, { r.2 with remote_wkp := false })

/-- Alignment padding (0x10 - (offset & 0xF)) & 0xF used by
spinal_udc_ram_init when carving descriptor slots. -/
def alignPad (off : Nat) : Nat := (0x10 - (off &&& 0xF)) &&& 0xF

/-- A blank descriptor record for a slot carved at the given RAM
address. -/
def mkDesc (addr : Nat) (raw : Nat) (large : Bool) : SpinalDesc :=
  { address := addr, length_raw := raw, isLarge := large
    offset := 0, length_deployed := 0, req_completion := false
    word0 := 0, word1 := 0, word2 := 0 }

/-- The DESC_LARGE_COUNT-iteration for-loop of spinal_udc_ram_init
(lines 1617-1636): align to 16 bytes, carve a large slot, account
left and offset.  left is signed (s32) and may go negative. -/
def ramInitLarges : Nat → Int → Nat → List SpinalDesc → Int × Nat × List SpinalDesc
  | 0, left, off, acc => (left, off, acc)
  | k + 1, left, off, acc =>
    let t := alignPad off
    let left := left - (t : Int)
    let off := off + t
    let d := mkDesc off (DESC_LARGE_SIZE - 4) true
    ramInitLarges k (left - ((DESC_HEADER_SIZE : Int) + (DESC_LARGE_SIZE : Int)))
      (off + DESC_HEADER_SIZE + DESC_LARGE_SIZE) (acc ++ [d])

/-- The small-descriptor while-loop of spinal_udc_ram_init (lines
1643-1661), with fuel: while left >= DESC_HEADER_SIZE +
DESC_SMALL_SIZE, align, carve a small slot, account. -/
def ramInitSmalls : Nat → Int → Nat → List SpinalDesc → List SpinalDesc
  | 0, _, _, acc => acc
  | fuel + 1, left, off, acc =>
    if ((DESC_HEADER_SIZE : Int) + (DESC_SMALL_SIZE : Int)) ≤ left then
      let t := alignPad off
      let left := left - (t : Int)
      let off := off + t
      let d := mkDesc off (DESC_SMALL_SIZE - 4) false
      ramInitSmalls fuel (left - ((DESC_HEADER_SIZE : Int) + (DESC_SMALL_SIZE : Int)))
        (off + DESC_HEADER_SIZE + DESC_SMALL_SIZE) (acc ++ [d])
    else acc

/-- spinal_udc_ram_init (lines 1595-1663) as the pair of free-lists it
builds from the peripheral RAM size 2^addressWidth: skip the 0x40+8
byte scratch/setup-latch region and the 12+8 byte EP0 setup descriptor,
carve DESC_LARGE_COUNT large slots, then small slots while room
remains.  The RAM test-pattern writes at lines 1604-1606 touch only
peripheral RAM contents, which are not modelled. -/
def spinal_udc_ram_init (addressWidth : Nat) : List SpinalDesc × List SpinalDesc :=
  let left : Int := (2 ^ addressWidth : Nat) - (0x48 : Int)
  let off : Nat := 0x48
  let left := left - ((DESC_HEADER_SIZE : Int) + 8)
  let off := off + DESC_HEADER_SIZE + 8
  let r := ramInitLarges DESC_LARGE_COUNT left off []
  let smalls := ramInitSmalls (2 ^ addressWidth) r.1 r.2.1 []
  (smalls, r.2.2)

/-- Endpoint record as spinal_udc_eps_init (lines 1544-1593) leaves
slot n: empty FIFOs, zero counters, OUT direction, disabled. -/
def initEp (n : Nat) : SpinalEp :=
  { epnumber := n, is_in := false, is_iso := false, enabled := false
    maxpacket := 0, reqs := [], descriptors := [], descriptor_count := 0
    pending_reqs_done := 0 }

/-- The scratch EP0 request created at probe (spinal_udc_req_init on
udc->ep0_req with the 64-byte ep0_req_data buffer). -/
def initEp0Req : SpinalReq :=
  { id := 0, length := 0, zero := false, short_not_ok := false
    bufAddr := 0, actual := 0, status := 0, commited_length := 0
    commited_once := false, descriptors := [], complete := ComplTag.none }

/-- Driver state after spinal_udc_probe (lines 1665-1775) on a
peripheral reporting the given ADDRESS_WIDTH: pools from ram_init,
endpoints from eps_init, all sixteen endpoint registers written to 0,
refill_queue and refill_robin zero, ep0_state 0, no driver bound,
gadget speed unknown. -/
def spinal_udc_probe (addressWidth : Nat) : Udc :=
  let pools := spinal_udc_ram_init addressWidth
  { eps := initEp
    epRegs := fun _ => 0
    dp_small := pools.1
    dp_large := pools.2
    refill_queue := 0
    refill_robin := 0
    setup_wLength := 0
    ep0_state := 0
    driver := false
    gadget_speed := USB_SPEED_UNKNOWN
    remote_wkp := false
    ep0_data_completion := ComplTag.none
    ep0_data_req := none
    ep0_req := initEp0Req
    irqReg := 0
    completions := [] }

/-- Invariant of one endpoint record: descriptor_count equals the
length of the in-flight list and is at most EP_DESC_MAX. -/
def epInv (e : SpinalEp) : Prop :=
  e.descriptor_count = e.descriptors.length ∧ e.descriptor_count ≤ EP_DESC_MAX

/-- The endpoint invariant over all sixteen endpoint slots. -/
def udcInv (s : Udc) : Prop :=
  ∀ n, n < SPINAL_UDC_MAX_ENDPOINTS → epInv (s.getEp n)

instance (e : SpinalEp) : Decidable (epInv e) := by
  unfold epInv; infer_instance

instance (s : Udc) : Decidable (udcInv s) := by
  unfold udcInv; infer_instance

/-- The packet_end predicate exactly as claim C1 states it (a
specification-side definition, to be compared against the source
computation in refillStep): true when the descriptor finishes an IN
request, req.zero is false, and, on EP0, the transfer has reached
setup.wLength. -/
def claimedPacketEnd (finishesIn : Bool) (zero : Bool) (epn : Nat) (reached : Bool) :
    Bool :=
  finishesIn && !zero && (!(decide (epn = 0)) || reached)

/-- Result of the C boolean-or operator on two unsigned constants. -/
def cLogicalOr (a b : Nat) : Nat := if a ≠ 0 ∨ b ≠ 0 then 1 else 0

/-- The value the probe writes to the CONFIG register at line 1701:
USB_DEVICE_INTERRUPT_DISABLE || USB_DEVICE_PULLUP_DISABLE, with the C
logical-or the source actually uses. -/
def spinal_udc_probe_config_write : Nat :=
  cLogicalOr USB_DEVICE_INTERRUPT_DISABLE USB_DEVICE_PULLUP_DISABLE

/-- Endpoint index computed by spinal_udc_get_status (line 448):
setup.wIndex & USB_ENDPOINT_NUMBER_MASK. -/
def spinal_udc_get_status_epnum (wIndex : Nat) : Nat :=
  wIndex &&& USB_ENDPOINT_NUMBER_MASK

/-- Endpoint index computed by spinal_udc_set_clear_feature (line 513):
setup.wIndex & USB_ENDPOINT_NUMBER_MASK. -/
def spinal_udc_set_clear_feature_epnum (wIndex : Nat) : Nat :=
  wIndex &&& USB_ENDPOINT_NUMBER_MASK

/-- Size of the endpoint array allocated by spinal_udc_eps_init
(udc->ep_count = 16 at line 1550). -/
def spinal_udc_ep_count : Nat := 16

/-- A fresh gadget request used by the concrete scenarios. -/
def mkReq (i len : Nat) (z : Bool) (buf : Nat) : SpinalReq :=
  { id := i, length := len, zero := z, short_not_ok := false, bufAddr := buf
    actual := 0, status := 0, commited_length := 0, commited_once := false
    descriptors := [], complete := ComplTag.gadget i }

/-- Bulk-IN endpoint descriptor for endpoint n with the given
maxpacket. -/
def bulkInDesc (n mps : Nat) : UsbEndpointDescriptor :=
  { bEndpointAddress := 0x80 ||| n, bmAttributes := 2, wMaxPacketSize := mps }

/-- Driver state for the C1 scenario: probe on a 4 KiB peripheral, a
gadget driver bound at full speed, endpoint 1 enabled as bulk IN with
maxpacket 64. -/
def c1Base : Udc :=
  (__spinal_udc_ep_enable (spinal_udc_start (spinal_udc_probe 12) USB_SPEED_FULL).2
    1 (bulkInDesc 1 64)).2

/-- The C1 request: a 64-byte IN transfer with zero = true (the caller
asks for a terminating ZLP). -/
def c1Req : SpinalReq := mkReq 7 64 true 4096

/-- Driver state after queueing the C1 request on endpoint 1. -/
def c1Run : Udc := (spinal_udc_ep_queue c1Base 1 c1Req).2

/-- Head in-flight descriptor of endpoint 1 in the C1 run (a dummy
blank descriptor if none, which the run refutes). -/
def c1Desc : SpinalDesc := (((c1Run.getEp 1).descriptors).head?).getD (mkDesc 0 0 false)

/-- Driver state for the C3/C5 scenarios: probe on a 2 KiB peripheral
(four large descriptors, no small ones), driver bound at full speed. -/
def c3s0 : Udc := (spinal_udc_start (spinal_udc_probe 11) USB_SPEED_FULL).2

/-- C3 scenario, endpoints 1..3 enabled as bulk IN maxpacket 512. -/
def c3s3 : Udc :=
  (__spinal_udc_ep_enable
    (__spinal_udc_ep_enable
      (__spinal_udc_ep_enable c3s0 1 (bulkInDesc 1 512)).2
      2 (bulkInDesc 2 512)).2
    3 (bulkInDesc 3 512)).2

/-- C3 scenario after endpoint 2 queues a 1024-byte IN request: the
refill loop hands it both remaining-pool large descriptors. -/
def c3s4 : Udc := (spinal_udc_ep_queue c3s3 2 (mkReq 2 1024 false 0x1000)).2

/-- C3 scenario after endpoint 3 queues a 1024-byte IN request, taking
the two remaining large descriptors; both pools are now empty. -/
def c3s5 : Udc := (spinal_udc_ep_queue c3s4 3 (mkReq 3 1024 false 0x2000)).2

/-- C3 scenario after endpoint 1 queues a 1024-byte IN request: its
refill finds both pools empty and, having no in-flight descriptor,
parks endpoint 1 on refill_queue (bit 1). -/
def c3s6 : Udc := (spinal_udc_ep_queue c3s5 1 (mkReq 1 1024 false 0x3000)).2

/-- RAM address of the first large descriptor carved by ram_init on an
11-bit peripheral (the head descriptor endpoint 2 received). -/
def c3FirstLargeAddr : Nat := 96

/-- C3 scenario after the completion path frees endpoint 2's first
descriptor: the descriptor returns to the large pool and the
refill-on-return picks parked endpoint 1, whose refill now succeeds and
installs an in-flight descriptor — without clearing refill_queue
bit 1. -/
def c3Final : Udc := spinal_udc_ep_desc_free c3s6 2 c3FirstLargeAddr

/-- Concrete state for the C6 witness: driver bound, full speed, one
request already outstanding on EP0. -/
def c6State : Udc :=
  c3s0.updEp 0 fun e => { e with reqs := [mkReq 9 0 false 0] }

/-- Concrete state for the C7 witness: a request with identity 5 queued
on endpoint 1 (status -EINPROGRESS as queue leaves it). -/
def c7State : Udc :=
  c3s0.updEp 1 fun e =>
    { e with reqs := [{ mkReq 5 64 false 0x4000 with status := -EINPROGRESS }]
             pending_reqs_done := 1 }

/-- The C1 request as the queue operation leaves it on the FIFO. -/
def c1QueuedReq : SpinalReq := { c1Req with status := -EINPROGRESS }

/-- Driver state of the C1 scenario just before the refill pass:
endpoint 1 holds the queued request and no in-flight descriptor. -/
def c1Pre : Udc :=
  c1Base.updEp 1 fun e => { e with reqs := [c1QueuedReq], pending_reqs_done := 1 }

/-- State produced by the C1 refill pass. -/
def c1StepState : Udc := (refillStep c1Pre 1).state

/-- Descriptor emitted by the C1 refill pass (a blank dummy if none,
which the pass refutes). -/
def c1StepDesc : SpinalDesc := ((refillStep c1Pre 1).desc).getD (mkDesc 0 0 false)

/-- State for the C3 witness: the pool-exhausted scenario with a
request queued on endpoint 1, before its refill pass runs. -/
def c3Parked : Udc :=
  c3s5.updEp 1 fun e =>
    { e with reqs := [{ mkReq 1 1024 false 0x3000 with status := -EINPROGRESS }]
             pending_reqs_done := 1 }

/-- State for the C4 witness, non-EP0 part: exactly one small
descriptor left, a 32-byte request queued on endpoint 1. -/
def c4StateN : Udc :=
  ({ spinal_udc_probe 11 with dp_small := [mkDesc 2000 64 false] }).updEp 1
    fun e => { e with reqs := [mkReq 4 32 false 0] }

/-- State for the C4 witness, EP0 part: exactly one small descriptor
left, a 32-byte request queued on EP0. -/
def c4State0 : Udc :=
  ({ spinal_udc_probe 11 with dp_small := [mkDesc 2000 64 false] }).updEp 0
    fun e => { e with reqs := [mkReq 5 32 false 0] }

theorem getEp_updEp (s : Udc) (k : Nat) (f : SpinalEp → SpinalEp) (n : Nat) :
    (s.updEp k f).getEp n = if n = k then f (s.getEp n) else s.getEp n := by
  simp only [Udc.getEp, Udc.updEp]

theorem getEp_setReg (s : Udc) (k v n : Nat) : (s.setReg k v).getEp n = s.getEp n := rfl

theorem getEp_mapDesc (s : Udc) (a : Nat) (f : SpinalDesc → SpinalDesc) (n : Nat) :
    ((s.mapDesc a f).getEp n).descriptors =
      (s.getEp n).descriptors.map (fun d => if d.address = a then f d else d) ∧
    ((s.mapDesc a f).getEp n).descriptor_count = (s.getEp n).descriptor_count ∧
    ((s.mapDesc a f).getEp n).reqs =
      (s.getEp n).reqs.map (fun r =>
        { r with descriptors := r.descriptors.map (fun d => if d.address = a then f d else d) }) ∧
    ((s.mapDesc a f).getEp n).pending_reqs_done = (s.getEp n).pending_reqs_done := by
  refine ⟨rfl, rfl, rfl, rfl⟩

theorem refill_queue_updEp (s : Udc) (k : Nat) (f : SpinalEp → SpinalEp) :
    (s.updEp k f).refill_queue = s.refill_queue := rfl

theorem refill_queue_setReg (s : Udc) (k v : Nat) :
    (s.setReg k v).refill_queue = s.refill_queue := rfl

theorem refill_queue_mapDesc (s : Udc) (a : Nat) (f : SpinalDesc → SpinalDesc) :
    (s.mapDesc a f).refill_queue = s.refill_queue := rfl

/-- C2: for every call that stalls EP0, the claim says the stall is
aborted iff the SETUP interrupt (bit 17 of the INTERRUPT register) is
pending at the pre-check, and cleared again iff SETUP is pending at the
post-check.  The source masks the register with USB_DEVICE_IRQ_SETUP,
which is the bit index 17 (0b10001, the EP0 and EP4 completion bits),
not the mask 1 << 17.  Evaluating the code: with only the SETUP bit
pending at both reads the stall is neither aborted nor restored (the
stall write happens and stands), while with only the EP0-completion bit
pending the stall is aborted although no SETUP is pending. -/
theorem c2_setup_mask_bug :
    (spinal_udc_ep0_stall (1 <<< 17) (1 <<< 17) 0 false).aborted = false ∧
    (spinal_udc_ep0_stall (1 <<< 17) (1 <<< 17) 0 false).restored = false ∧
    (spinal_udc_ep0_stall (1 <<< 17) (1 <<< 17) 0 false).epRegWrites =
      [USB_DEVICE_EP_STALL] ∧
    (1 <<< 17 : Nat).testBit USB_DEVICE_IRQ_SETUP = true ∧
    (spinal_udc_ep0_stall 1 0 0 false).aborted = true ∧
    (1 : Nat).testBit USB_DEVICE_IRQ_SETUP = false := by decide

/-- C1 counterexample: queueing a 64-byte IN request with zero = true
on endpoint 1 emits a descriptor that finishes the IN request; the
claim's packet_end predicate (which requires req.zero to be false) is
false there, so by the claim COMPL_ON_FULL must be set in word 2 — but
the code computes packet_end = true and omits COMPL_ON_FULL. -/
theorem c1_counterexample :
    c1Desc.req_completion = true ∧ (c1Base.getEp 1).is_in = true ∧
    c1Req.zero = true ∧
    claimedPacketEnd true c1Req.zero 1 false = false ∧
    c1Desc.word2 &&& USB_DEVICE_DESC_COMPL_ON_FULL = 0 := by decide

/-- C3 counterexample: in the reachable state c3Final (probe, start,
three endpoints enabled, two 1024-byte requests exhausting the pools, a
third request parking endpoint 1 on refill_queue, then a completion
freeing one descriptor, whose refill-on-return refills endpoint 1), bit
1 of refill_queue is still set although endpoint 1 now holds an
in-flight descriptor: the bit is never cleared. -/
theorem c3_counterexample :
    c3Final.refill_queue.testBit 1 = true ∧
    (c3Final.getEp 1).descriptors ≠ [] ∧
    (c3Final.getEp 1).descriptor_count = 1 := by decide

/-- C8 counterexample: the value written by the probe expression
INTERRUPT_DISABLE || PULLUP_DISABLE is not 0x2, the bitwise-or of the
two disable constants is not 0x2 either, and the two disable codes are
not the same bit (they are 0x8 and 0x2). -/
theorem c8_counterexample :
    spinal_udc_probe_config_write ≠ 2 ∧
    (USB_DEVICE_INTERRUPT_DISABLE ||| USB_DEVICE_PULLUP_DISABLE) ≠ 2 ∧
    USB_DEVICE_INTERRUPT_DISABLE ≠ USB_DEVICE_PULLUP_DISABLE := by decide

/-- C8 amended: the boolean-or expression evaluates to 0x1 (C logical
or of two non-zero constants), which happens to equal
USB_DEVICE_PULLUP_ENABLE; the bitwise-or the spec presumes intended
would be 0xA, since the two disable codes are the distinct bits 0x8 and
0x2.  The two do not coincide. -/
theorem c8_amended_values :
    spinal_udc_probe_config_write = 1 ∧
    spinal_udc_probe_config_write = USB_DEVICE_PULLUP_ENABLE ∧
    (USB_DEVICE_INTERRUPT_DISABLE ||| USB_DEVICE_PULLUP_DISABLE) = 0xA ∧
    spinal_udc_probe_config_write ≠
      (USB_DEVICE_INTERRUPT_DISABLE ||| USB_DEVICE_PULLUP_DISABLE) := by decide

/-- C10: the endpoint index used by the GET_STATUS and
SET/CLEAR_FEATURE endpoint-recipient handlers is wIndex masked with the
4-bit endpoint-number mask, hence below the size of the 16-entry
endpoint array allocated by eps_init, for every host-supplied wIndex. -/
theorem c10_epnum_in_bounds : ∀ wIndex : Nat,
    spinal_udc_get_status_epnum wIndex < SPINAL_UDC_MAX_ENDPOINTS ∧
    spinal_udc_set_clear_feature_epnum wIndex < SPINAL_UDC_MAX_ENDPOINTS ∧
    spinal_udc_ep_count = SPINAL_UDC_MAX_ENDPOINTS := by
  intro w
  have h1 : w &&& USB_ENDPOINT_NUMBER_MASK ≤ USB_ENDPOINT_NUMBER_MASK :=
    Nat.and_le_right
  have h2 : USB_ENDPOINT_NUMBER_MASK < SPINAL_UDC_MAX_ENDPOINTS := by decide
  exact ⟨Nat.lt_of_le_of_lt h1 h2, Nat.lt_of_le_of_lt h1 h2, rfl⟩

/-- C10 witness at the extreme host-supplied index 0xFFFF. -/
theorem c10_witness :
    spinal_udc_get_status_epnum 0xFFFF < SPINAL_UDC_MAX_ENDPOINTS ∧
    spinal_udc_set_clear_feature_epnum 0xFFFF < SPINAL_UDC_MAX_ENDPOINTS ∧
    spinal_udc_ep_count = SPINAL_UDC_MAX_ENDPOINTS :=
  c10_epnum_in_bounds 0xFFFF

theorem driver_updEp (s : Udc) (k : Nat) (f : SpinalEp → SpinalEp) :
    (s.updEp k f).driver = s.driver := rfl

theorem gadget_speed_updEp (s : Udc) (k : Nat) (f : SpinalEp → SpinalEp) :
    (s.updEp k f).gadget_speed = s.gadget_speed := rfl

theorem ep0_state_updEp (s : Udc) (k : Nat) (f : SpinalEp → SpinalEp) :
    (s.updEp k f).ep0_state = s.ep0_state := rfl

/-- C6: with a bound gadget driver and known speed, every EP0 queue
call made while the EP0 request FIFO is non-empty is rejected with
-EBUSY and leaves the FIFO unchanged (the request is not appended):
EP0 is single-outstanding.  (The driver/speed guard precedes the busy
check in the source; without a bound driver the call is still rejected
without appending, but with -EINVAL.) -/
theorem c6_ep0_single_outstanding : ∀ fuel : Nat, ∀ s : Udc, ∀ req : SpinalReq,
    s.driver = true → s.gadget_speed ≠ USB_SPEED_UNKNOWN →
    (s.getEp 0).reqs ≠ [] →
    (__spinal_udc_ep0_queue fuel s req).1 = -EBUSY ∧
    ((__spinal_udc_ep0_queue fuel s req).2.getEp 0).reqs = (s.getEp 0).reqs := by
  intro fuel s req hd hs hr
  unfold __spinal_udc_ep0_queue
  have hcond : ¬((s.updEp 0 fun e =>
      { e with pending_reqs_done := u32 (e.pending_reqs_done + 1) }).driver = false ∨
      (s.updEp 0 fun e =>
      { e with pending_reqs_done := u32 (e.pending_reqs_done + 1) }).gadget_speed =
        USB_SPEED_UNKNOWN) := by
    rw [driver_updEp, gadget_speed_updEp, hd]
    simp [hs]
  have hreqs : ((s.updEp 0 fun e =>
      { e with pending_reqs_done := u32 (e.pending_reqs_done + 1) }).getEp 0).reqs =
      (s.getEp 0).reqs := by
    rw [getEp_updEp, if_pos rfl]
  rw [if_neg hcond, if_pos (by rw [hreqs]; exact hr)]
  exact ⟨rfl, hreqs⟩

/-- C6 witness: a concrete call on a state with one outstanding EP0
request. -/
theorem c6_witness :
    (__spinal_udc_ep0_queue 1 c6State (mkReq 10 2 false 0)).1 = -EBUSY ∧
    ((__spinal_udc_ep0_queue 1 c6State (mkReq 10 2 false 0)).2.getEp 0).reqs =
      (c6State.getEp 0).reqs :=
  c6_ep0_single_outstanding 1 c6State (mkReq 10 2 false 0) (by decide) (by decide)
    (by decide)

/-- C9: every internal EP0 queue call that takes an error path — either
-EINVAL (no driver or unknown gadget speed) or -EBUSY (non-empty EP0
FIFO) — returns a state identical to the input except that ep0's
pending_reqs_done was incremented (mod 2^32) before the checks; the
error path does not restore the endpoint state. -/
theorem c9_error_leaves_pending_incremented : ∀ fuel : Nat, ∀ s : Udc, ∀ req : SpinalReq,
    ((s.driver = false ∨ s.gadget_speed = USB_SPEED_UNKNOWN) ∨ (s.getEp 0).reqs ≠ []) →
    ((__spinal_udc_ep0_queue fuel s req).1 = -EINVAL ∨
      (__spinal_udc_ep0_queue fuel s req).1 = -EBUSY) ∧
    (__spinal_udc_ep0_queue fuel s req).2 =
      s.updEp 0 (fun e => { e with pending_reqs_done := u32 (e.pending_reqs_done + 1) }) := by
  intro fuel s req h
  unfold __spinal_udc_ep0_queue
  by_cases hc : (s.driver = false ∨ s.gadget_speed = USB_SPEED_UNKNOWN)
  · have hc1 : ((s.updEp 0 fun e =>
        { e with pending_reqs_done := u32 (e.pending_reqs_done + 1) }).driver = false ∨
        (s.updEp 0 fun e =>
        { e with pending_reqs_done := u32 (e.pending_reqs_done + 1) }).gadget_speed =
          USB_SPEED_UNKNOWN) := by
      rw [driver_updEp, gadget_speed_updEp]; exact hc
    rw [if_pos hc1]
    exact ⟨Or.inl rfl, rfl⟩
  · have hr : (s.getEp 0).reqs ≠ [] := by
      rcases h with h | h
      · exact absurd h hc
      · exact h
    have hc1 : ¬((s.updEp 0 fun e =>
        { e with pending_reqs_done := u32 (e.pending_reqs_done + 1) }).driver = false ∨
        (s.updEp 0 fun e =>
        { e with pending_reqs_done := u32 (e.pending_reqs_done + 1) }).gadget_speed =
          USB_SPEED_UNKNOWN) := by
      rw [driver_updEp, gadget_speed_updEp]; exact hc
    have hreqs : ((s.updEp 0 fun e =>
        { e with pending_reqs_done := u32 (e.pending_reqs_done + 1) }).getEp 0).reqs =
        (s.getEp 0).reqs := by
      rw [getEp_updEp, if_pos rfl]
    rw [if_neg hc1, if_pos (by rw [hreqs]; exact hr)]
    exact ⟨Or.inr rfl, rfl⟩

/-- C9 witness: a concrete call with no bound driver (probe state). -/
theorem c9_witness :
    ((__spinal_udc_ep0_queue 1 (spinal_udc_probe 11) (mkReq 11 0 false 0)).1 = -EINVAL ∨
      (__spinal_udc_ep0_queue 1 (spinal_udc_probe 11) (mkReq 11 0 false 0)).1 = -EBUSY) ∧
    (__spinal_udc_ep0_queue 1 (spinal_udc_probe 11) (mkReq 11 0 false 0)).2 =
      (spinal_udc_probe 11).updEp 0
        (fun e => { e with pending_reqs_done := u32 (e.pending_reqs_done + 1) }) :=
  c9_error_leaves_pending_incremented 1 (spinal_udc_probe 11) (mkReq 11 0 false 0)
    (Or.inl (Or.inl (by decide)))


theorem count_updHeadReqEp (s : Udc) (epn : Nat) (g : SpinalReq → SpinalReq) (j : Nat) :
    ((updHeadReqEp s epn g).getEp j).descriptor_count = (s.getEp j).descriptor_count := by
  unfold updHeadReqEp
  rw [getEp_updEp]
  split_ifs <;> rfl

theorem len_updHeadReqEp (s : Udc) (epn : Nat) (g : SpinalReq → SpinalReq) (j : Nat) :
    ((updHeadReqEp s epn g).getEp j).descriptors.length =
      (s.getEp j).descriptors.length := by
  unfold updHeadReqEp
  rw [getEp_updEp]
  split_ifs <;> rfl

theorem queue_updHeadReqEp (s : Udc) (epn : Nat) (g : SpinalReq → SpinalReq) :
    (updHeadReqEp s epn g).refill_queue = s.refill_queue := rfl

theorem completions_updHeadReqEp (s : Udc) (epn : Nat) (g : SpinalReq → SpinalReq) :
    (updHeadReqEp s epn g).completions = s.completions := rfl

theorem reqIds_updHeadReqEp (s : Udc) (epn : Nat) (g : SpinalReq → SpinalReq)
    (hg : ∀ r, (g r).id = r.id) (j : Nat) :
    ((updHeadReqEp s epn g).getEp j).reqs.map (fun r => r.id) =
      (s.getEp j).reqs.map (fun r => r.id) := by
  unfold updHeadReqEp
  rw [getEp_updEp]
  split_ifs with he
  · cases hl : (s.getEp j).reqs with
    | nil => simp [hl]
    | cons r rs =>
      simp only [hl, List.map_cons]
      rw [hg]
  · rfl


theorem refill_queue_push (s : Udc) (k : Nat) (d : SpinalDesc) :
    (spinal_udc_descriptor_push s k d).refill_queue = s.refill_queue := by
  simp only [spinal_udc_descriptor_push]
  split
  · rfl
  · split <;> rfl

theorem push_getEp_count (s : Udc) (k : Nat) (d : SpinalDesc) (n : Nat) :
    ((spinal_udc_descriptor_push s k d).getEp n).descriptor_count =
      if n = k then u32 ((s.getEp n).descriptor_count + 1)
      else (s.getEp n).descriptor_count := by
  simp only [spinal_udc_descriptor_push]
  split
  · rw [getEp_updEp]
    split_ifs <;> simp [Udc.mapDesc, Udc.getEp]
  · split
    · rw [getEp_updEp]
      split_ifs <;> simp [Udc.setReg, Udc.getEp]
    · rw [getEp_updEp]
      split_ifs <;> rfl

theorem push_getEp_len (s : Udc) (k : Nat) (d : SpinalDesc) (n : Nat) :
    ((spinal_udc_descriptor_push s k d).getEp n).descriptors.length =
      if n = k then (s.getEp n).descriptors.length + 1
      else (s.getEp n).descriptors.length := by
  simp only [spinal_udc_descriptor_push]
  split
  · rw [getEp_updEp]
    split_ifs <;> simp [Udc.mapDesc, Udc.getEp]
  · split
    · rw [getEp_updEp]
      split_ifs <;> simp [Udc.setReg, Udc.getEp]
    · rw [getEp_updEp]
      split_ifs <;> simp

theorem refillStep_stop_shape (s : Udc) (epn : Nat) (s1 : Udc)
    (h : refillStep s epn = .stop s1) :
    s1 = s ∨ (s1 = { s with refill_queue := u16trunc (s.refill_queue ||| (1 <<< epn)) } ∧
      (s.getEp epn).descriptor_count = 0) := by
  unfold refillStep at h
  by_cases hcount : (s.getEp epn).descriptor_count = EP_DESC_MAX
  · rw [if_pos hcount] at h
    exact Or.inl (by injection h with h1; exact h1.symm)
  rw [if_neg hcount] at h
  cases hr : (s.getEp epn).reqs with
  | nil =>
    simp only [hr] at h
    exact Or.inl (by injection h with h1; exact h1.symm)
  | cons req rest =>
    simp only [hr] at h
    by_cases hleft : (u32sub req.length req.commited_length = 0 ∧ req.commited_once = true)
    · rw [if_pos hleft] at h
      exact Or.inl (by injection h with h1; exact h1.symm)
    rw [if_neg hleft] at h
    cases hp : refillPick s epn (u32sub req.length req.commited_length) with
    | none =>
      simp only [hp] at h
      by_cases hz : (s.getEp epn).descriptor_count = 0
      · rw [if_pos hz] at h
        injection h with h1
        exact Or.inr ⟨h1.symm, hz⟩
      · rw [if_neg hz] at h
        exact Or.inl (by injection h with h1; exact h1.symm)
    | some pr =>
      simp only [hp] at h
      exact absurd h (by simp)

theorem completions_updEp (s : Udc) (k : Nat) (f : SpinalEp → SpinalEp) :
    (s.updEp k f).completions = s.completions := rfl

theorem completions_setReg (s : Udc) (k v : Nat) :
    (s.setReg k v).completions = s.completions := rfl

theorem completions_mapDesc (s : Udc) (a : Nat) (f : SpinalDesc → SpinalDesc) :
    (s.mapDesc a f).completions = s.completions := rfl

theorem completions_push (s : Udc) (k : Nat) (d : SpinalDesc) :
    (spinal_udc_descriptor_push s k d).completions = s.completions := by
  simp only [spinal_udc_descriptor_push]
  split
  · rfl
  · split <;> rfl

theorem reqIds_mapDesc (s : Udc) (a : Nat) (f : SpinalDesc → SpinalDesc) (j : Nat) :
    ((s.mapDesc a f).getEp j).reqs.map (fun r => r.id) =
      (s.getEp j).reqs.map (fun r => r.id) := by
  rw [(getEp_mapDesc s a f j).2.2.1, List.map_map]
  rfl

theorem reqIds_push (s : Udc) (k : Nat) (d : SpinalDesc) (j : Nat) :
    ((spinal_udc_descriptor_push s k d).getEp j).reqs.map (fun r => r.id) =
      (s.getEp j).reqs.map (fun r => r.id) := by
  simp only [spinal_udc_descriptor_push]
  split
  · rw [getEp_updEp]
    split_ifs <;> exact reqIds_mapDesc _ _ _ j
  · split
    · rw [getEp_updEp]
      split_ifs <;> rfl
    · rw [getEp_updEp]
      split_ifs <;> rfl

theorem refillStep_emitted_shape (s : Udc) (epn : Nat) (s1 : Udc) (d : SpinalDesc)
    (h : refillStep s epn = .emitted s1 d) :
    s1.refill_queue = s.refill_queue ∧
    (s.getEp epn).descriptor_count ≠ EP_DESC_MAX ∧
    (∀ n, (s1.getEp n).descriptor_count =
      if n = epn then u32 ((s.getEp n).descriptor_count + 1)
      else (s.getEp n).descriptor_count) ∧
    (∀ n, (s1.getEp n).descriptors.length =
      if n = epn then (s.getEp n).descriptors.length + 1
      else (s.getEp n).descriptors.length) ∧
    s1.completions = s.completions ∧
    (∀ n, (s1.getEp n).reqs.map (fun r => r.id) = (s.getEp n).reqs.map (fun r => r.id)) := by
  unfold refillStep at h
  by_cases hcount : (s.getEp epn).descriptor_count = EP_DESC_MAX
  · rw [if_pos hcount] at h
    exact absurd h (by simp)
  rw [if_neg hcount] at h
  cases hr : (s.getEp epn).reqs with
  | nil =>
    simp only [hr] at h
    exact absurd h (by simp)
  | cons req rest =>
    simp only [hr] at h
    by_cases hleft : (u32sub req.length req.commited_length = 0 ∧ req.commited_once = true)
    · rw [if_pos hleft] at h
      exact absurd h (by simp)
    rw [if_neg hleft] at h
    cases hp : refillPick s epn (u32sub req.length req.commited_length) with
    | none =>
      simp only [hp] at h
      split at h <;> exact absurd h (by simp)
    | some pr =>
      cases pr with
      | mk desc0 fromLarge =>
        simp only [hp] at h
        injection h with h1 h2
        rw [← h1]
        have hpool : ∀ m, ((if fromLarge = true then { s with dp_large := s.dp_large.tail }
            else { s with dp_small := s.dp_small.tail }) : Udc).getEp m = s.getEp m := by
          intro m; split <;> rfl
        have hpoolq : ((if fromLarge = true then { s with dp_large := s.dp_large.tail }
            else { s with dp_small := s.dp_small.tail }) : Udc).refill_queue =
            s.refill_queue := by
          split <;> rfl
        have hpoolc : ((if fromLarge = true then { s with dp_large := s.dp_large.tail }
            else { s with dp_small := s.dp_small.tail }) : Udc).completions =
            s.completions := by
          split <;> rfl
        refine ⟨?_, hcount, ?_, ?_, ?_, ?_⟩
        · rw [queue_updHeadReqEp, refill_queue_push, queue_updHeadReqEp, hpoolq]
        · intro n
          rw [count_updHeadReqEp, push_getEp_count, count_updHeadReqEp, hpool]
        · intro n
          rw [len_updHeadReqEp, push_getEp_len, len_updHeadReqEp, hpool]
        · rw [completions_updHeadReqEp, completions_push, completions_updHeadReqEp, hpoolc]
        · intro n
          rw [reqIds_updHeadReqEp, reqIds_push, reqIds_updHeadReqEp, hpool] <;>
            exact fun r => rfl

theorem getEp_link_head (s : Udc) (epn : Nat) (n : Nat) :
    (spinal_udc_ep_link_head s epn).getEp n = s.getEp n := by
  simp only [spinal_udc_ep_link_head]
  split
  · rfl
  · split
    · rfl
    · split
      · rfl
      · rfl

theorem refill_queue_link_head (s : Udc) (epn : Nat) :
    (spinal_udc_ep_link_head s epn).refill_queue = s.refill_queue := by
  simp only [spinal_udc_ep_link_head]
  split
  · rfl
  · split
    · rfl
    · split
      · rfl
      · rfl

theorem udcInv_refillStep_stop (s : Udc) (epn : Nat) (s1 : Udc)
    (hstep : refillStep s epn = .stop s1) (h : udcInv s) : udcInv s1 := by
  rcases refillStep_stop_shape s epn s1 hstep with rfl | ⟨rfl, _⟩
  · exact h
  · exact fun n hn => h n hn

theorem udcInv_refillStep_emitted (s : Udc) (epn : Nat) (s1 : Udc) (d : SpinalDesc)
    (hstep : refillStep s epn = .emitted s1 d) (h : udcInv s) : udcInv s1 := by
  obtain ⟨_, hcnt, hc, hl, _, _⟩ := refillStep_emitted_shape s epn s1 d hstep
  intro n hn
  obtain ⟨h1, h2⟩ := h n hn
  constructor
  · rw [hc n, hl n]
    by_cases hne : n = epn
    · rw [if_pos hne, if_pos hne, h1]
      have hne2 : (s.getEp n).descriptor_count ≠ EP_DESC_MAX := by rw [hne]; exact hcnt
      have : (s.getEp n).descriptors.length + 1 < 2 ^ 32 := by
        rw [← h1]
        simp only [EP_DESC_MAX] at h2 hne2
        omega
      rw [u32, U32, Nat.mod_eq_of_lt this]
    · rw [if_neg hne, if_neg hne, h1]
  · rw [hc n]
    by_cases hne : n = epn
    · rw [if_pos hne]
      have hne2 : (s.getEp n).descriptor_count ≠ EP_DESC_MAX := by rw [hne]; exact hcnt
      simp only [u32, U32, EP_DESC_MAX] at h2 hne2 ⊢
      omega
    · rw [if_neg hne]
      exact h2

theorem udcInv_refillLoop (fuel : Nat) (s : Udc) (epn : Nat)
    (h : udcInv s) : udcInv (refillLoop fuel s epn) := by
  induction fuel generalizing s with
  | zero => exact h
  | succ f ih =>
    unfold refillLoop
    cases hstep : refillStep s epn with
    | stop s1 => exact udcInv_refillStep_stop s epn s1 hstep h
    | emitted s1 d => exact ih s1 (udcInv_refillStep_emitted s epn s1 d hstep h)

theorem udcInv_link_head (s : Udc) (epn : Nat) (h : udcInv s) :
    udcInv (spinal_udc_ep_link_head s epn) := by
  intro n hn
  rw [getEp_link_head]
  exact h n hn

theorem udcInv_refill (s : Udc) (epn : Nat) (h : udcInv s) :
    udcInv (spinal_udc_ep_desc_refill s epn) :=
  udcInv_refillLoop REFILL_FUEL (spinal_udc_ep_link_head s epn) epn
    (udcInv_link_head s epn h)

theorem length_eraseP_of_find {α : Type} (p : α → Bool) :
    ∀ l : List α, ∀ a : α, l.find? p = some a → (l.eraseP p).length + 1 = l.length := by
  intro l
  induction l with
  | nil => intro a h; simp at h
  | cons b t ih =>
    intro a h
    by_cases hb : p b = true
    · rw [List.eraseP_cons_of_pos hb]
      rfl
    · rw [List.eraseP_cons_of_neg (by simpa using hb)]
      rw [List.find?_cons_of_neg _ (by simpa using hb)] at h
      simp only [List.length_cons]
      rw [ih a h]

theorem udcInv_descFree (s : Udc) (epn : Nat) (addr : Nat) (h : udcInv s) :
    udcInv (spinal_udc_ep_desc_free s epn addr) := by
  simp only [spinal_udc_ep_desc_free]
  cases hf : (s.getEp epn).descriptors.find? (fun d => d.address = addr) with
  | none => simp only [hf]; exact h
  | some desc =>
    simp only [hf]
    have h1 : udcInv (s.updEp epn fun e =>
        { e with
          descriptors := e.descriptors.eraseP (fun d => d.address = addr)
          reqs := e.reqs.map fun r =>
            { r with descriptors := r.descriptors.eraseP (fun d => d.address = addr) }
          descriptor_count := u32sub e.descriptor_count 1 }) := by
      intro n hn
      rw [getEp_updEp]
      by_cases hne : n = epn
      · rw [if_pos hne]
        obtain ⟨hc, hb⟩ := h n hn
        have hlen : ((s.getEp n).descriptors.eraseP
            (fun d => d.address = addr)).length + 1 = (s.getEp n).descriptors.length := by
          apply length_eraseP_of_find _ _ desc
          rw [hne]; exact hf
        constructor
        · show u32sub (s.getEp n).descriptor_count 1 = _
          simp only [u32sub, U32, EP_DESC_MAX] at hc hb hlen ⊢
          omega
        · show u32sub (s.getEp n).descriptor_count 1 ≤ _
          simp only [u32sub, U32, EP_DESC_MAX] at hc hb hlen ⊢
          omega
      · rw [if_neg hne]
        exact h n hn
    by_cases hL : desc.isLarge = true
    · rw [if_pos hL]
      split
      · split
        · exact udcInv_refill _ 0 (fun n hn => h1 n hn)
        · split
          · exact udcInv_refill _ _ (fun n hn => h1 n hn)
          · exact fun n hn => h1 n hn
      · exact fun n hn => h1 n hn
    · rw [if_neg hL]
      split
      · split
        · exact udcInv_refill _ 0 (fun n hn => h1 n hn)
        · split
          · exact udcInv_refill _ _ (fun n hn => h1 n hn)
          · exact fun n hn => h1 n hn
      · exact fun n hn => h1 n hn

theorem udcInv_mapDesc (s : Udc) (a : Nat) (f : SpinalDesc → SpinalDesc) (h : udcInv s) :
    udcInv (s.mapDesc a f) := by
  intro n hn
  obtain ⟨hc, hb⟩ := h n hn
  obtain ⟨hd, hcnt, _, _⟩ := getEp_mapDesc s a f n
  constructor
  · rw [hcnt, hd, List.length_map, hc]
  · rw [hcnt]; exact hb

theorem udcInv_updEp_keep (s : Udc) (k : Nat) (f : SpinalEp → SpinalEp)
    (hpres : ∀ e, (f e).descriptors = e.descriptors ∧ (f e).descriptor_count = e.descriptor_count)
    (h : udcInv s) : udcInv (s.updEp k f) := by
  intro n hn
  rw [getEp_updEp]
  by_cases he : n = k
  · rw [if_pos he]
    obtain ⟨hd, hc⟩ := hpres (s.getEp n)
    obtain ⟨h1, h2⟩ := h n hn
    exact ⟨by rw [hc, hd]; exact h1, by rw [hc]; exact h2⟩
  · rw [if_neg he]
    exact h n hn

theorem udcInv_doneDrainDesc (s : Udc) (epn : Nat) (addr : Nat) (h : udcInv s) :
    udcInv (doneDrainDesc s epn addr) := by
  simp only [doneDrainDesc]
  cases hf : (s.getEp epn).descriptors.find? (fun d => d.address = addr) with
  | none => simp only [hf]; exact h
  | some desc =>
    simp only [hf]
    apply udcInv_descFree
    split
    · exact h
    · split
      · exact fun n hn => h n hn
      · split
        · exact udcInv_mapDesc _ _ _ h
        · exact h

theorem udcInv_drainFold (epn : Nat) (l : List SpinalDesc) :
    ∀ s : Udc, udcInv s →
      udcInv (l.foldl (fun acc d => doneDrainDesc acc epn d.address) s) := by
  induction l with
  | nil => exact fun s h => h
  | cons d t ih =>
    intro s h
    exact ih (doneDrainDesc s epn d.address) (udcInv_doneDrainDesc s epn d.address h)

theorem udcInv_done (s : Udc) (epn : Nat) (reqId : Nat) (status : Int) (h : udcInv s) :
    udcInv (spinal_udc_done s epn reqId status) := by
  simp only [spinal_udc_done]
  cases hf : (s.getEp epn).reqs.find? (fun r => r.id = reqId) with
  | none => simp only [hf]; exact h
  | some req =>
    simp only [hf]
    have h1 : udcInv (s.updEp epn fun e =>
        { e with reqs := e.reqs.eraseP (fun r => r.id = reqId) }) :=
      udcInv_updEp_keep s epn _ (fun e => ⟨rfl, rfl⟩) h
    have h2 := udcInv_drainFold epn req.descriptors _ h1
    have h3 := udcInv_updEp_keep _ epn
      (fun e => { e with pending_reqs_done := u32sub e.pending_reqs_done 1 })
      (fun e => ⟨rfl, rfl⟩) h2
    exact fun n hn => h3 n hn

theorem udcInv_nukeDrain (fuel : Nat) :
    ∀ s : Udc, ∀ epn : Nat, ∀ status : Int, udcInv s →
      udcInv (nukeDrain fuel s epn status) := by
  induction fuel with
  | zero => exact fun s _ _ h => h
  | succ f ih =>
    intro s epn status h
    unfold nukeDrain
    split
    · exact h
    · exact ih _ epn status (udcInv_done _ epn _ status h)

theorem udcInv_nuke (s : Udc) (epn : Nat) (status : Int) (h : udcInv s) :
    udcInv (spinal_udc_nuke s epn status) := by
  unfold spinal_udc_nuke
  exact udcInv_nukeDrain _ _ epn status (fun n hn => h n hn)

theorem udcInv_push (s : Udc) (epn : Nat) (d : SpinalDesc) (h : udcInv s)
    (hcnt : (s.getEp epn).descriptor_count ≠ EP_DESC_MAX) :
    udcInv (spinal_udc_descriptor_push s epn d) := by
  intro n hn
  obtain ⟨h1, h2⟩ := h n hn
  constructor
  · rw [push_getEp_count, push_getEp_len]
    by_cases hne : n = epn
    · rw [if_pos hne, if_pos hne, h1]
      have hcc : (s.getEp n).descriptor_count ≠ EP_DESC_MAX := by rw [hne]; exact hcnt
      rw [← h1]
      simp only [u32, U32, EP_DESC_MAX] at h2 hcc ⊢
      omega
    · rw [if_neg hne, if_neg hne, h1]
  · rw [push_getEp_count]
    by_cases hne : n = epn
    · rw [if_pos hne]
      have hcc : (s.getEp n).descriptor_count ≠ EP_DESC_MAX := by rw [hne]; exact hcnt
      simp only [u32, U32, EP_DESC_MAX] at h2 hcc ⊢
      omega
    · rw [if_neg hne]
      exact h2

theorem udcInv_probe (w : Nat) : udcInv (spinal_udc_probe w) := by
  intro n hn
  exact ⟨rfl, Nat.zero_le _⟩

theorem completions_link_head (s : Udc) (epn : Nat) :
    (spinal_udc_ep_link_head s epn).completions = s.completions := by
  simp only [spinal_udc_ep_link_head]
  split
  · rfl
  · split
    · rfl
    · split
      · rfl
      · rfl

theorem reqIds_refillLoop (fuel : Nat) :
    ∀ s : Udc, ∀ epn j : Nat,
      ((refillLoop fuel s epn).getEp j).reqs.map (fun r => r.id) =
        ((s.getEp j).reqs).map (fun r => r.id) := by
  induction fuel with
  | zero => exact fun s epn j => rfl
  | succ f ih =>
    intro s epn j
    rw [refillLoop]
    cases hstep : refillStep s epn with
    | stop s1 =>
      rcases refillStep_stop_shape s epn s1 hstep with rfl | ⟨rfl, _⟩
      · rfl
      · rfl
    | emitted s1 d =>
      rw [ih s1 epn j]
      exact (refillStep_emitted_shape s epn s1 d hstep).2.2.2.2.2 j

theorem completions_refillLoop (fuel : Nat) :
    ∀ s : Udc, ∀ epn : Nat,
      (refillLoop fuel s epn).completions = s.completions := by
  induction fuel with
  | zero => exact fun s epn => rfl
  | succ f ih =>
    intro s epn
    rw [refillLoop]
    cases hstep : refillStep s epn with
    | stop s1 =>
      rcases refillStep_stop_shape s epn s1 hstep with rfl | ⟨rfl, _⟩
      · rfl
      · rfl
    | emitted s1 d =>
      rw [ih s1 epn]
      exact (refillStep_emitted_shape s epn s1 d hstep).2.2.2.2.1

theorem reqIds_refill (s : Udc) (epn j : Nat) :
    ((spinal_udc_ep_desc_refill s epn).getEp j).reqs.map (fun r => r.id) =
      ((s.getEp j).reqs).map (fun r => r.id) := by
  unfold spinal_udc_ep_desc_refill
  rw [reqIds_refillLoop, getEp_link_head]

theorem completions_refill (s : Udc) (epn : Nat) :
    (spinal_udc_ep_desc_refill s epn).completions = s.completions := by
  unfold spinal_udc_ep_desc_refill
  rw [completions_refillLoop, completions_link_head]

theorem reqIds_descFree (s : Udc) (epn addr : Nat) (j : Nat) :
    ((spinal_udc_ep_desc_free s epn addr).getEp j).reqs.map (fun r => r.id) =
      ((s.getEp j).reqs).map (fun r => r.id) := by
  simp only [spinal_udc_ep_desc_free]
  cases hf : (s.getEp epn).descriptors.find? (fun d => d.address = addr) with
  | none => simp only [hf]
  | some desc =>
    simp only [hf]
    have hbase : ∀ t : Udc, (∀ m, (t.getEp m).reqs.map (fun r => r.id) =
        ((s.getEp m).reqs).map (fun r => r.id)) →
        ∀ m, ((if t.refill_queue ≠ 0 then
            (if t.refill_queue &&& 1 ≠ 0 then spinal_udc_ep_desc_refill t 0
             else match robinWalk 32 t.refill_queue t.refill_robin with
              | some winner =>
                spinal_udc_ep_desc_refill { t with refill_robin := winner + 1 } winner
              | none => t)
          else t).getEp m).reqs.map (fun r => r.id) =
          ((s.getEp m).reqs).map (fun r => r.id) := by
      intro t ht m
      split
      · split
        · rw [reqIds_refill]; exact ht m
        · split
          · rw [reqIds_refill]; exact ht m
          · exact ht m
      · exact ht m
    have hupd : ∀ m, (((s.updEp epn fun e =>
        { e with
          descriptors := e.descriptors.eraseP (fun d => d.address = addr)
          reqs := e.reqs.map fun r =>
            { r with descriptors := r.descriptors.eraseP (fun d => d.address = addr) }
          descriptor_count := u32sub e.descriptor_count 1 }).getEp m).reqs).map
          (fun r => r.id) = ((s.getEp m).reqs).map (fun r => r.id) := by
      intro m
      rw [getEp_updEp]
      split_ifs with hm
      · show (((s.getEp m).reqs.map _).map _) = _
        rw [List.map_map]
        rfl
      · rfl
    by_cases hL : desc.isLarge = true
    · rw [if_pos hL]
      apply hbase
      intro m
      exact hupd m
    · rw [if_neg hL]
      apply hbase
      intro m
      exact hupd m

theorem completions_descFree (s : Udc) (epn addr : Nat) :
    (spinal_udc_ep_desc_free s epn addr).completions = s.completions := by
  simp only [spinal_udc_ep_desc_free]
  cases hf : (s.getEp epn).descriptors.find? (fun d => d.address = addr) with
  | none => simp only [hf]
  | some desc =>
    simp only [hf]
    have hbase : ∀ t : Udc, t.completions = s.completions →
        ((if t.refill_queue ≠ 0 then
            (if t.refill_queue &&& 1 ≠ 0 then spinal_udc_ep_desc_refill t 0
             else match robinWalk 32 t.refill_queue t.refill_robin with
              | some winner =>
                spinal_udc_ep_desc_refill { t with refill_robin := winner + 1 } winner
              | none => t)
          else t)).completions = s.completions := by
      intro t ht
      split
      · split
        · rw [completions_refill]; exact ht
        · split
          · rw [completions_refill]; exact ht
          · exact ht
      · exact ht
    by_cases hL : desc.isLarge = true
    · rw [if_pos hL]
      exact hbase _ rfl
    · rw [if_neg hL]
      exact hbase _ rfl


theorem reqIds_doneDrainDesc (s : Udc) (epn addr : Nat) (j : Nat) :
    ((doneDrainDesc s epn addr).getEp j).reqs.map (fun r => r.id) =
      ((s.getEp j).reqs).map (fun r => r.id) := by
  simp only [doneDrainDesc]
  cases hf : (s.getEp epn).descriptors.find? (fun d => d.address = addr) with
  | none => simp only [hf]
  | some desc =>
    simp only [hf]
    rw [reqIds_descFree]
    split
    · rfl
    · split
      · rfl
      · split
        · exact reqIds_mapDesc _ _ _ j
        · rfl

theorem completions_doneDrainDesc (s : Udc) (epn addr : Nat) :
    (doneDrainDesc s epn addr).completions = s.completions := by
  simp only [doneDrainDesc]
  cases hf : (s.getEp epn).descriptors.find? (fun d => d.address = addr) with
  | none => simp only [hf]
  | some desc =>
    simp only [hf]
    rw [completions_descFree]
    split
    · rfl
    · split
      · rfl
      · split
        · rfl
        · rfl

theorem reqIds_drainFold (epn : Nat) (l : List SpinalDesc) :
    ∀ s : Udc, ∀ j : Nat,
      ((l.foldl (fun acc d => doneDrainDesc acc epn d.address) s).getEp j).reqs.map
        (fun r => r.id) = ((s.getEp j).reqs).map (fun r => r.id) := by
  induction l with
  | nil => exact fun s j => rfl
  | cons d t ih =>
    intro s j
    show ((t.foldl _ (doneDrainDesc s epn d.address)).getEp j).reqs.map _ = _
    rw [ih, reqIds_doneDrainDesc]

theorem completions_drainFold (epn : Nat) (l : List SpinalDesc) :
    ∀ s : Udc,
      (l.foldl (fun acc d => doneDrainDesc acc epn d.address) s).completions =
        s.completions := by
  induction l with
  | nil => exact fun s => rfl
  | cons d t ih =>
    intro s
    show (t.foldl _ (doneDrainDesc s epn d.address)).completions = _
    rw [ih, completions_doneDrainDesc]

theorem getEp_logCompletion (s : Udc) (e : Nat × Int × ComplTag) (j : Nat) :
    (s.logCompletion e).getEp j = s.getEp j := rfl

theorem completions_logCompletion (s : Udc) (e : Nat × Int × ComplTag) :
    (s.logCompletion e).completions = s.completions ++ [e] := rfl

theorem reqIds_updEp_keepReqs (s : Udc) (k : Nat) (f : SpinalEp → SpinalEp)
    (hf : ∀ e, (f e).reqs = e.reqs) (j : Nat) :
    ((s.updEp k f).getEp j).reqs.map (fun r => r.id) =
      ((s.getEp j).reqs).map (fun r => r.id) := by
  rw [getEp_updEp]
  split_ifs with he
  · rw [hf]
  · rfl

theorem done_found_shape (s : Udc) (epn reqId : Nat) (status : Int) (req : SpinalReq)
    (hf : (s.getEp epn).reqs.find? (fun r => r.id = reqId) = some req) :
    (spinal_udc_done s epn reqId status).completions =
      s.completions ++ [(reqId,
        if req.status = -EINPROGRESS then status else req.status, req.complete)] ∧
    (∀ j, ((spinal_udc_done s epn reqId status).getEp j).reqs.map (fun r => r.id) =
      ((if j = epn then (s.getEp j).reqs.eraseP (fun r => r.id = reqId)
        else (s.getEp j).reqs)).map (fun r => r.id)) := by
  simp only [spinal_udc_done, hf]
  constructor
  · rw [completions_logCompletion, completions_updEp, completions_drainFold,
      completions_updEp]
  · intro j
    rw [getEp_logCompletion]
    rw [reqIds_updEp_keepReqs]
    · rw [reqIds_drainFold]
      rw [getEp_updEp]
      split_ifs with he
      · rfl
      · rfl
    · exact fun e => rfl

theorem filter_eraseP_nil {α : Type} (p : α → Bool) :
    ∀ l : List α, (l.filter p).length ≤ 1 → (l.eraseP p).filter p = [] := by
  intro l
  induction l with
  | nil => intro _; rfl
  | cons b t ih =>
    intro h
    by_cases hb : p b = true
    · rw [List.eraseP_cons_of_pos hb]
      rw [List.filter_cons_of_pos hb] at h
      simp only [List.length_cons] at h
      have ht : (t.filter p).length = 0 := by omega
      rw [List.filter_eq_nil_iff] at *
      intro a ha
      have := List.length_eq_zero.mp ht
      rw [List.filter_eq_nil_iff] at this
      exact this a ha
    · rw [List.eraseP_cons_of_neg (by simpa using hb)]
      rw [List.filter_cons_of_neg (by simpa using hb)] at h ⊢
      exact ih h

/-- C3 (amended): the refill loop sets refill_queue bit n only for its
own endpoint and only when, at that moment (and in the loop's final
state, which the bit-setting branch returns unchanged), the endpoint's
descriptor count is zero and its in-flight list is empty; any other set
bit was already set on entry.  The unamended claim's second half — that
the bit cannot remain set once the endpoint again holds in-flight
descriptors — is refuted by the counterexample: no operation ever
clears refill_queue bits. -/
theorem c3_refill_queue_amended : ∀ fuel : Nat, ∀ s : Udc, ∀ epn n : Nat,
    epn < 16 → s.refill_queue < 2 ^ 16 → udcInv s →
    (refillLoop fuel s epn).refill_queue.testBit n = true →
    s.refill_queue.testBit n = true ∨
    (n = epn ∧ ((refillLoop fuel s epn).getEp epn).descriptor_count = 0 ∧
      ((refillLoop fuel s epn).getEp epn).descriptors = []) := by
  intro fuel
  induction fuel with
  | zero => exact fun s epn n _ _ _ hbit => Or.inl hbit
  | succ f ih =>
    intro s epn n hepn hq hinv hbit
    rw [refillLoop] at hbit ⊢
    cases hstep : refillStep s epn with
    | stop s1 =>
      simp only [hstep] at hbit ⊢
      rcases refillStep_stop_shape s epn s1 hstep with rfl | ⟨rfl, hz⟩
      · exact Or.inl hbit
      · by_cases hne : n = epn
        · refine Or.inr ⟨hne, hz, ?_⟩
          obtain ⟨hc, _⟩ := hinv epn hepn
          rw [hz] at hc
          exact (List.eq_nil_of_length_eq_zero hc.symm)
        · apply Or.inl
          have hlt : s.refill_queue ||| 1 <<< epn < 2 ^ 16 := by
            apply Nat.or_lt_two_pow hq
            rw [Nat.one_shiftLeft]
            exact Nat.pow_lt_pow_right Nat.one_lt_two hepn
          simp only [u16trunc] at hbit
          rw [Nat.mod_eq_of_lt hlt] at hbit
          rw [Nat.testBit_or, Bool.or_eq_true] at hbit
          rcases hbit with hb | hb
          · exact hb
          · rw [Nat.one_shiftLeft] at hb
            rw [Nat.testBit_two_pow_of_ne (fun he => hne he.symm)] at hb
            exact absurd hb (by decide)
    | emitted s1 d =>
      simp only [hstep] at hbit ⊢
      obtain ⟨hqeq, _, _, _, _, _⟩ := refillStep_emitted_shape s epn s1 d hstep
      rcases ih s1 epn n hepn (by rw [hqeq]; exact hq)
        (udcInv_refillStep_emitted s epn s1 d hstep hinv) hbit with hb | hb
      · rw [hqeq] at hb
        exact Or.inl hb
      · exact Or.inr hb

/-- C7: dequeue(ep, req) with req absent from the endpoint FIFO fails
with -EINVAL and leaves the state (in particular the FIFO) unchanged;
with req on the FIFO (still -EINPROGRESS as queue left it, and queued
once), it returns 0, detaches the request, completes it with
-ECONNRESET (the completion log records the request with that status),
and the final state is exactly a refill pass over the state left by the
completion. -/
theorem c7_dequeue_semantics :
    (∀ s : Udc, ∀ epn reqId : Nat,
      (s.getEp epn).reqs.find? (fun r => r.id = reqId) = none →
      spinal_udc_ep_dequeue s epn reqId = (-EINVAL, s)) ∧
    (∀ s : Udc, ∀ epn reqId : Nat, ∀ req : SpinalReq,
      (s.getEp epn).reqs.find? (fun r => r.id = reqId) = some req →
      req.status = -EINPROGRESS →
      ((s.getEp epn).reqs.filter (fun r => r.id = reqId)).length ≤ 1 →
      (spinal_udc_ep_dequeue s epn reqId).1 = 0 ∧
      (∀ r ∈ ((spinal_udc_ep_dequeue s epn reqId).2.getEp epn).reqs, r.id ≠ reqId) ∧
      (reqId, -ECONNRESET, req.complete) ∈
        (spinal_udc_ep_dequeue s epn reqId).2.completions ∧
      (spinal_udc_ep_dequeue s epn reqId).2 =
        spinal_udc_ep_desc_refill (spinal_udc_done s epn reqId (-ECONNRESET)) epn) := by
  constructor
  · intro s epn reqId hf
    simp [spinal_udc_ep_dequeue, hf]
  · intro s epn reqId req hf hstatus huniq
    have hd : (spinal_udc_ep_dequeue s epn reqId).2 =
        spinal_udc_ep_desc_refill (spinal_udc_done s epn reqId (-ECONNRESET)) epn := by
      simp [spinal_udc_ep_dequeue, hf]
    have hr1 : (spinal_udc_ep_dequeue s epn reqId).1 = 0 := by
      simp [spinal_udc_ep_dequeue, hf]
    obtain ⟨hcompl, hids⟩ := done_found_shape s epn reqId (-ECONNRESET) req hf
    refine ⟨hr1, ?_, ?_, hd⟩
    · intro r hr
      have h1 : r.id ∈ (((spinal_udc_ep_dequeue s epn reqId).2.getEp epn).reqs).map
          (fun x => x.id) := List.mem_map_of_mem _ hr
      rw [hd, reqIds_refill, hids epn, if_pos rfl] at h1
      obtain ⟨r2, hr2, heq⟩ := List.mem_map.mp h1
      have hnil := filter_eraseP_nil (fun r => decide (r.id = reqId))
        ((s.getEp epn).reqs) huniq
      rw [List.filter_eq_nil_iff] at hnil
      intro hcontra
      exact hnil r2 hr2 (by simp [heq, hcontra])
    · rw [hd, completions_refill, hcompl, if_pos hstatus]
      exact List.mem_append_right _ (by simp)


/-- C1 (amended): for every descriptor the refill pass emits, the
COMPL_ON_FULL flag is omitted from word 2 exactly when the descriptor
finishes an IN request (req_completion with the endpoint in IN
direction), req.zero is TRUE, and it is not the case that the endpoint
is EP0 with the transfer having reached setup.wLength.  (The unamended
claim required req.zero false and, on EP0, wLength reached; the
counterexample refutes it.) -/
theorem c1_compl_on_full_amended :
    ∀ s : Udc, ∀ epn : Nat, ∀ s1 : Udc, ∀ d : SpinalDesc,
    ∀ req : SpinalReq, ∀ rest : List SpinalReq,
    (s.getEp epn).reqs = req :: rest →
    refillStep s epn = .emitted s1 d →
    (d.word2 &&& USB_DEVICE_DESC_COMPL_ON_FULL = 0 ↔
      (d.req_completion = true ∧ (s.getEp epn).is_in = true ∧ req.zero = true ∧
        ¬(epn = 0 ∧ s.setup_wLength ≤ u32 (req.commited_length + d.length_deployed)))) := by
  intro s epn s1 d req rest hreqs h
  unfold refillStep at h
  by_cases hcount : (s.getEp epn).descriptor_count = EP_DESC_MAX
  · rw [if_pos hcount] at h; exact absurd h (by simp)
  rw [if_neg hcount] at h
  simp only [hreqs] at h
  by_cases hleft : (u32sub req.length req.commited_length = 0 ∧ req.commited_once = true)
  · rw [if_pos hleft] at h; exact absurd h (by simp)
  rw [if_neg hleft] at h
  split at h
  · split at h <;> exact absurd h (by simp)
  · rename_i desc0 fromLarge heq
    injection h with h1 h2
    subst h2
    dsimp only
    simp only [decide_eq_true_eq]
    by_cases hpe : (desc0.length_raw ⊓ u32sub req.length req.commited_length =
        u32sub req.length req.commited_length ∧ (s.getEp epn).is_in = true ∧
        ¬((s.getEp epn).is_in = true ∧ req.zero = false) ∧
        ¬(epn = 0 ∧ s.setup_wLength ≤ u32 (req.commited_length +
          desc0.length_raw ⊓ u32sub req.length req.commited_length)))
    · rw [if_pos hpe]
      constructor
      · intro _
        refine ⟨hpe.1.symm, hpe.2.1, ?_, hpe.2.2.2⟩
        cases hz : req.zero with
        | true => rfl
        | false => exact absurd ⟨hpe.2.1, hz⟩ hpe.2.2.1
      · intro _
        split_ifs <;> decide
    · rw [if_neg hpe]
      constructor
      · intro hzero
        exfalso
        revert hzero
        split_ifs <;> decide
      · intro hx
        exact absurd ⟨hx.1.symm, hx.2.1,
          (by intro hy; rw [hx.2.2.1] at hy; exact absurd hy.2 (by decide)),
          hx.2.2.2⟩ hpe

/-- C1 witness: the amended characterization applied to the concrete C1
scenario (64-byte IN request with zero = true on endpoint 1). -/
theorem c1_compl_on_full_witness :
    c1StepDesc.word2 &&& USB_DEVICE_DESC_COMPL_ON_FULL = 0 ↔
      (c1StepDesc.req_completion = true ∧ (c1Pre.getEp 1).is_in = true ∧
        c1QueuedReq.zero = true ∧
        ¬((1 : Nat) = 0 ∧ c1Pre.setup_wLength ≤
          u32 (c1QueuedReq.commited_length + c1StepDesc.length_deployed))) :=
  c1_compl_on_full_amended c1Pre 1 c1StepState c1StepDesc c1QueuedReq []
    (by decide) (by rfl)

/-- C4: for every refill pass by an endpoint other than EP0 that
reaches the allocation, if the large pool is unusable (the remaining
bytes are below the large threshold or the pool is empty) and exactly
one small descriptor remains, allocation fails: no descriptor is
emitted, both pools and the endpoint's in-flight list are unchanged.
Conversely an EP0 pass under the same conditions does take the last
small descriptor. -/
theorem c4_last_small_reserved :
    (∀ s : Udc, ∀ epn : Nat, ∀ req : SpinalReq, ∀ rest : List SpinalReq, epn ≠ 0 →
      (s.getEp epn).reqs = req :: rest →
      (s.getEp epn).descriptor_count ≠ EP_DESC_MAX →
      ¬(u32sub req.length req.commited_length = 0 ∧ req.commited_once = true) →
      (u32sub req.length req.commited_length < DESC_LARGE_SIZE - 4 ∨ s.dp_large = []) →
      s.dp_small.length = 1 →
      (refillStep s epn).desc = none ∧
      (refillStep s epn).state.dp_small = s.dp_small ∧
      (refillStep s epn).state.dp_large = s.dp_large ∧
      ((refillStep s epn).state.getEp epn).descriptors = (s.getEp epn).descriptors) ∧
    (∀ s : Udc, ∀ req : SpinalReq, ∀ rest : List SpinalReq,
      (s.getEp 0).reqs = req :: rest →
      (s.getEp 0).descriptor_count ≠ EP_DESC_MAX →
      ¬(u32sub req.length req.commited_length = 0 ∧ req.commited_once = true) →
      (u32sub req.length req.commited_length < DESC_LARGE_SIZE - 4 ∨ s.dp_large = []) →
      s.dp_small.length = 1 →
      ∃ d, (refillStep s 0).desc = some d) := by
  constructor
  · intro s epn req rest hne hreqs hcount hleft hlarge hsmall
    have hpick : refillPick s epn (u32sub req.length req.commited_length) = none := by
      unfold refillPick
      have hpick1 : ¬(u32sub req.length req.commited_length ≥ DESC_LARGE_SIZE - 4 ∧
          s.dp_large ≠ []) := by
        rcases hlarge with h | h
        · intro hx; exact absurd hx.1 (not_le_of_lt h)
        · intro hx; exact hx.2 h
      have hpick2 : ¬(s.dp_small ≠ [] ∧ (epn = 0 ∨ 2 ≤ s.dp_small.length)) := by
        intro hx
        rcases hx.2 with h | h
        · exact hne h
        · rw [hsmall] at h; omega
      rw [if_neg hpick1, if_neg hpick2]
    unfold refillStep
    rw [if_neg hcount]
    simp only [hreqs]
    rw [if_neg hleft]
    simp only [hpick]
    by_cases hz : (s.getEp epn).descriptor_count = 0
    · rw [if_pos hz]
      exact ⟨rfl, rfl, rfl, rfl⟩
    · rw [if_neg hz]
      exact ⟨rfl, rfl, rfl, rfl⟩
  · intro s req rest hreqs hcount hleft hlarge hsmall
    have hnil : s.dp_small ≠ [] := by
      intro h; rw [h] at hsmall; simp at hsmall
    obtain ⟨d, hd⟩ : ∃ d, s.dp_small.head? = some d := by
      cases hl : s.dp_small with
      | nil => exact absurd hl hnil
      | cons a tl => exact ⟨a, rfl⟩
    have hpick : refillPick s 0 (u32sub req.length req.commited_length) =
        some (d, false) := by
      unfold refillPick
      have hpick1 : ¬(u32sub req.length req.commited_length ≥ DESC_LARGE_SIZE - 4 ∧
          s.dp_large ≠ []) := by
        rcases hlarge with h | h
        · intro hx; exact absurd hx.1 (not_le_of_lt h)
        · intro hx; exact hx.2 h
      rw [if_neg hpick1, if_pos (⟨hnil, Or.inl rfl⟩ :
        s.dp_small ≠ [] ∧ ((0 : Nat) = 0 ∨ 2 ≤ s.dp_small.length)), hd]
      rfl
    unfold refillStep
    rw [if_neg hcount]
    simp only [hreqs]
    rw [if_neg hleft]
    simp only [hpick]
    exact ⟨_, rfl⟩

/-- C4 witness: with one small descriptor left and the large pool
unusable, endpoint 1's pass hands out nothing, while an EP0 pass in the
same situation succeeds. -/
theorem c4_witness :
    ((refillStep c4StateN 1).desc = none ∧
      (refillStep c4StateN 1).state.dp_small = c4StateN.dp_small ∧
      (refillStep c4StateN 1).state.dp_large = c4StateN.dp_large ∧
      ((refillStep c4StateN 1).state.getEp 1).descriptors =
        (c4StateN.getEp 1).descriptors) ∧
    (∃ d, (refillStep c4State0 0).desc = some d) :=
  ⟨c4_last_small_reserved.1 c4StateN 1 (mkReq 4 32 false 0) [] (by decide) (by decide)
      (by decide) (by decide) (Or.inl (by decide)) (by decide),
    c4_last_small_reserved.2 c4State0 (mkReq 5 32 false 0) [] (by decide) (by decide)
      (by decide) (Or.inl (by decide)) (by decide)⟩

/-- C5: the descriptor-count invariant — every endpoint's
descriptor_count equals the length of its in-flight list and is at most
EP_DESC_MAX — holds in the probe state and is preserved by every
operation that adds to or removes from an in-flight list: descriptor
push (under its call-site guard descriptor_count != EP_DESC_MAX, which
the refill loop always checks first), descriptor free, the refill loop,
request completion (done), and nuke. -/
theorem c5_descriptor_count_invariant :
    (∀ w : Nat, udcInv (spinal_udc_probe w)) ∧
    (∀ s : Udc, ∀ epn : Nat, ∀ d : SpinalDesc, udcInv s →
      (s.getEp epn).descriptor_count ≠ EP_DESC_MAX →
      udcInv (spinal_udc_descriptor_push s epn d)) ∧
    (∀ s : Udc, ∀ epn addr : Nat, udcInv s →
      udcInv (spinal_udc_ep_desc_free s epn addr)) ∧
    (∀ s : Udc, ∀ epn : Nat, udcInv s → udcInv (spinal_udc_ep_desc_refill s epn)) ∧
    (∀ s : Udc, ∀ epn reqId : Nat, ∀ status : Int, udcInv s →
      udcInv (spinal_udc_done s epn reqId status)) ∧
    (∀ s : Udc, ∀ epn : Nat, ∀ status : Int, udcInv s →
      udcInv (spinal_udc_nuke s epn status)) :=
  ⟨udcInv_probe,
    fun s epn d h hc => udcInv_push s epn d h hc,
    fun s epn addr h => udcInv_descFree s epn addr h,
    fun s epn h => udcInv_refill s epn h,
    fun s epn reqId status h => udcInv_done s epn reqId status h,
    fun s epn status h => udcInv_nuke s epn status h⟩

/-- C5 witness: the invariant at concrete reachable states and one
application of each preserved operation. -/
theorem c5_witness :
    udcInv (spinal_udc_probe 11) ∧
    udcInv (spinal_udc_descriptor_push c3s0 1 (mkDesc 96 512 true)) ∧
    udcInv (spinal_udc_ep_desc_free c3s4 2 96) ∧
    udcInv (spinal_udc_ep_desc_refill c3s0 1) ∧
    udcInv (spinal_udc_done c3s4 2 2 0) ∧
    udcInv (spinal_udc_nuke c3s4 2 (-ESHUTDOWN)) :=
  ⟨c5_descriptor_count_invariant.1 11,
    c5_descriptor_count_invariant.2.1 c3s0 1 (mkDesc 96 512 true) (by decide) (by decide),
    c5_descriptor_count_invariant.2.2.1 c3s4 2 96 (by decide),
    c5_descriptor_count_invariant.2.2.2.1 c3s0 1 (by decide),
    c5_descriptor_count_invariant.2.2.2.2.1 c3s4 2 2 0 (by decide),
    c5_descriptor_count_invariant.2.2.2.2.2 c3s4 2 (-ESHUTDOWN) (by decide)⟩

/-- C3 witness: the amended theorem applied to the concrete
pool-exhausted state: the pass parks endpoint 1 and indeed its
in-flight list is empty at that moment. -/
theorem c3_refill_queue_witness :
    c3Parked.refill_queue.testBit 1 = true ∨
    ((1 : Nat) = 1 ∧ ((refillLoop 1 c3Parked 1).getEp 1).descriptor_count = 0 ∧
      ((refillLoop 1 c3Parked 1).getEp 1).descriptors = []) :=
  c3_refill_queue_amended 1 c3Parked 1 1 (by decide) (by decide) (by decide) (by decide)

/-- C7 witness: dequeue of an absent request id fails and changes
nothing; dequeue of the queued request id 5 detaches and completes it
with -ECONNRESET and refills. -/
theorem c7_dequeue_witness :
    spinal_udc_ep_dequeue c7State 1 99 = (-EINVAL, c7State) ∧
    ((spinal_udc_ep_dequeue c7State 1 5).1 = 0 ∧
      (∀ r ∈ ((spinal_udc_ep_dequeue c7State 1 5).2.getEp 1).reqs, r.id ≠ 5) ∧
      ((5 : Nat), -ECONNRESET,
        ({ mkReq 5 64 false 0x4000 with status := -EINPROGRESS } : SpinalReq).complete) ∈
        (spinal_udc_ep_dequeue c7State 1 5).2.completions ∧
      (spinal_udc_ep_dequeue c7State 1 5).2 =
        spinal_udc_ep_desc_refill (spinal_udc_done c7State 1 5 (-ECONNRESET)) 1) :=
  ⟨c7_dequeue_semantics.1 c7State 1 99 (by decide),
    c7_dequeue_semantics.2 c7State 1 5
      ({ mkReq 5 64 false 0x4000 with status := -EINPROGRESS })
      (by decide) (by decide) (by decide)⟩

end Spinal
